import Mathlib

/-!
Verification of the Material resource of the LumixEngine renderer
(`src/unnamed/part_001`, `Material::*` in namespace `Lumix`).

The material code is shallowly embedded: the parsed JSON document is a list
of labelled entries (the C++ code dispatches on the label strings it reads
from the serializer; the embedding dispatches on constructors carrying the
same payloads), machine integers are `Nat` with explicit `% 2^32` / `% 2^64`
where the C++ type is `uint32` / `uint64`, floats are exact rationals, and
the side effects on collaborator resources (dependency edges, resource
unloads, shader-instance resolution, command-buffer regeneration) are
recorded as an explicit event trace where a claim needs their order.
-/

namespace LumixSpec

/-- Floating point values of the material document, modelled exactly as
unreduced fractions (the material code only stores, copies and compares
them, and truncates `v * 255` to a byte; every value written by the code
round-trips representation-exactly, so fraction equality is syntactic). -/
structure F where
  num : Int
  den : Int
deriving DecidableEq, Repr

instance (n : Nat) : OfNat F n := ⟨⟨n, 1⟩⟩

/-- `Lumix::Vec3`, used for the material color and vec3/color uniforms. -/
structure Vec3 where
  x : F
  y : F
  z : F
deriving DecidableEq, Repr

/-- `Shader::Uniform::...` type tags (shader.h). -/
inductive UniformType where
  | FLOAT
  | COLOR
  | VEC3
  | TIME
  | INT
  | MATRIX4
deriving DecidableEq, Repr

/-- crc32 of a byte, bitwise (core/crc32.cpp is the standard CRC-32;
8 shift/xor rounds with the reflected polynomial 0xEDB88320). -/
def crc32Byte (crc b : Nat) : Nat :=
  (fun c => if c % 2 = 1 then (c / 2) ^^^ 0xEDB88320 else c / 2)^[8] (crc ^^^ b)

/-- `Lumix::crc32` on a string (ASCII bytes of the name). -/
def crc32 (s : String) : Nat :=
  0xFFFFFFFF ^^^ s.data.foldl (fun c ch => crc32Byte c (ch.toNat % 256)) 0xFFFFFFFF

/-- One uniform declared by a shader's schema: name, its crc32 hash and type
(shader.h; `Shader::getUniform(i)`). -/
structure ShaderUniform where
  name : String
  name_hash : Nat
  type : UniformType
deriving DecidableEq, Repr

/-- One texture slot declared by a shader, optionally tied to a feature
define index (`Shader::TextureSlot::m_define_idx`, -1 = none). -/
structure TextureSlot where
  define_idx : Int
deriving DecidableEq, Repr

/-- The part of `Shader` the material reads: path, uniform schema, texture
slot schema, base render states and readiness. -/
structure Shader where
  path : String
  uniforms : List ShaderUniform
  texture_slots : List TextureSlot
  render_states : Nat
  ready : Bool
deriving DecidableEq, Repr

/-- The part of `Texture` the material reads and writes: resource path,
flag bitmask, atlas size (-1 = none), retained-data reference count and
whether decoded data is present (`getData() != nullptr`). -/
structure Texture where
  path : String
  flags : Nat
  atlas_size : Int
  data_refs : Nat
  has_data : Bool
deriving DecidableEq, Repr

/-- `Material::Uniform`: the material-side uniform value cell.  A
default-constructed cell is zero-valued (`Array::emplace()` value-initializes). -/
structure Uniform where
  name_hash : Nat
  int_value : Int
  float_value : F
  vec3 : Vec3
  matrix : Fin 16 → F
deriving DecidableEq

/-- The zero-valued `Material::Uniform`. -/
def Uniform.zero : Uniform :=
  { name_hash := 0, int_value := 0, float_value := 0, vec3 := ⟨0, 0, 0⟩, matrix := fun _ => 0 }

instance : Inhabited Uniform := ⟨Uniform.zero⟩

/-- Modelled from the spec: the renderer-owned shader-define name table and
the engine default shader (`Renderer::getShaderDefine`,
`Renderer::getShaderDefineIdx`, `Renderer::getDefaultShader`; renderer.cpp is
not in src/).  §9: "Global shader-define name table ... explicit init at
renderer construction and read-only access thereafter"; §3: a material's
shader is "never null once constructed — falls back to an engine default
shader". -/
structure Renderer where
  shader_defines : List String
  default_shader : Shader
deriving DecidableEq, Repr

/-- Modelled from the spec: `Renderer::getShaderDefine(idx)` resolves a
define index back to its name via the name table. -/
def Renderer.getShaderDefine (r : Renderer) (i : Nat) : String :=
  r.shader_defines.getD i ""

/-- Modelled from the spec: `Renderer::getShaderDefineIdx(name)` resolves a
define name to its index in the name table (an unknown name is appended, so
it maps to the current table length). -/
def Renderer.getShaderDefineIdx (r : Renderer) (s : String) : Nat :=
  r.shader_defines.indexOf s

/-- Resource states (`Resource::State`, resource.h). -/
inductive ResState where
  | EMPTY
  | LOADING
  | READY
  | FAILURE
deriving DecidableEq, Repr

/-- Modelled from the spec: the resource state transition driven by the
result of the load callback (resource.cpp is not in src/).  §7: a failed
load moves the resource to FAILURE; a successful one lets it proceed toward
READY. -/
def resourceStateAfterLoad (ok : Bool) : ResState :=
  if ok then ResState.READY else ResState.FAILURE

/-- Side effects of the material mutators on collaborator objects, in
program order: dependency edges, texture atlas propagation, resource
unloads, command-buffer regeneration and shader-instance resolution
(`Shader::getInstance(mask)`). -/
inductive MatEvent where
  | addDependency (path : String)
  | removeDependency (path : String)
  | unloadRes (path : String)
  | setAtlasSize (path : String) (size : Int)
  | createCommandBuffer
  | getInstance (mask : Nat)
deriving DecidableEq, Repr

/-- `MAX_TEXTURE_COUNT` (material.h): the fixed number of texture slots. -/
def MAX_TEXTURE_COUNT : Nat := 16

/-- The material state touched by material.cpp.  `textures` is the
fixed-size `m_textures` array (length `MAX_TEXTURE_COUNT`), `ready` is
`Resource::isReady()`. -/
structure Material where
  shader : Option Shader
  uniforms : List Uniform
  textures : List (Option Texture)
  texture_count : Nat
  render_states : Nat
  define_mask : Nat
  color : Vec3
  shininess : F
  alpha_ref : F
  layer_count : Int
  ready : Bool
deriving DecidableEq

/-- 2^32, the modulus of the `uint32` define mask. -/
def U32 : Nat := 2 ^ 32

/-- 2^64, the modulus of the `uint64` render-state mask. -/
def U64 : Nat := 2 ^ 64

/-- `m_define_mask |= 1 << k` on a `uint32`. -/
def setMaskBit (mask k : Nat) : Nat :=
  (mask ||| (1 <<< k)) % U32

/-- `m_define_mask &= ~(1 << k)` on a `uint32`. -/
def clearMaskBit (mask k : Nat) : Nat :=
  mask &&& ((U32 - 1) ^^^ ((1 <<< k) % U32))

/-- Modelled from the spec: the bgfx render-state alpha-reference sub-field
(`BGFX_STATE_ALPHA_REF_SHIFT` / `_MASK`; the bgfx header is not in src/).
§3: the render state is a bitmask "including an embedded 8-bit
alpha-reference sub-field". -/
def BGFX_STATE_ALPHA_REF_SHIFT : Nat := 40

/-- The mask of the 8-bit alpha-reference sub-field. -/
def BGFX_STATE_ALPHA_REF_MASK : Nat := 0xff <<< BGFX_STATE_ALPHA_REF_SHIFT

/-- `BGFX_STATE_ALPHA_REF(v)`: place an 8-bit value into the sub-field. -/
def bgfxStateAlphaRef (v : Nat) : Nat :=
  (v <<< BGFX_STATE_ALPHA_REF_SHIFT) &&& BGFX_STATE_ALPHA_REF_MASK

/-- Read the 8-bit alpha-reference sub-field back out of a render-state mask. -/
def alphaRefField (rs : Nat) : Nat :=
  (rs >>> BGFX_STATE_ALPHA_REF_SHIFT) &&& 0xff

/-- The C++ cast `uint8(v * 255.0f)`: multiply by 255 and truncate toward
zero (`Int.tdiv` is truncating division), reduced to the byte range. -/
def floatToUint8 (v : F) : Nat :=
  ((v.num * 255).tdiv v.den).toNat % 256

/-- Modelled from the spec: bgfx texture-flag bit constants (the bgfx header
is not in src/).  Only their distinctness matters to the material code. -/
def BGFX_TEXTURE_U_CLAMP : Nat := 0x2

/-- bgfx texture flag: clamp in v. -/
def BGFX_TEXTURE_V_CLAMP : Nat := 0x8

/-- bgfx texture flag: clamp in w. -/
def BGFX_TEXTURE_W_CLAMP : Nat := 0x20

/-- bgfx texture flag: point minification filter. -/
def BGFX_TEXTURE_MIN_POINT : Nat := 0x40

/-- bgfx texture flag: anisotropic minification filter. -/
def BGFX_TEXTURE_MIN_ANISOTROPIC : Nat := 0x80

/-- bgfx texture flag: point magnification filter. -/
def BGFX_TEXTURE_MAG_POINT : Nat := 0x100

/-- bgfx texture flag: anisotropic magnification filter. -/
def BGFX_TEXTURE_MAG_ANISOTROPIC : Nat := 0x200

/-- bgfx texture flag: sRGB sampling. -/
def BGFX_TEXTURE_SRGB : Nat := 0x200000

/-- The union of all texture-flag bits `Material::save` serializes. -/
def SAVED_TEXTURE_FLAGS : Nat :=
  BGFX_TEXTURE_SRGB ||| BGFX_TEXTURE_U_CLAMP ||| BGFX_TEXTURE_V_CLAMP |||
  BGFX_TEXTURE_W_CLAMP ||| BGFX_TEXTURE_MIN_POINT ||| BGFX_TEXTURE_MIN_ANISOTROPIC |||
  BGFX_TEXTURE_MAG_POINT ||| BGFX_TEXTURE_MAG_ANISOTROPIC

/-- `DEFAULT_ALPHA_REF_VALUE = 0.3f` (material.cpp line 23). -/
def DEFAULT_ALPHA_REF_VALUE : F := ⟨3, 10⟩

/-- `Material::isDefined(define_idx)`:
`(m_define_mask & (1 << define_idx)) != 0`. -/
def Material.isDefined (m : Material) (k : Nat) : Bool :=
  (m.define_mask &&& (1 <<< k)) != 0

/-- `Material::setDefine(define_idx, enabled)` (material.cpp lines 71-90):
toggle the bit, then re-resolve the shader instance only when the material
is ready, has a shader and the mask actually changed.  The returned trace
records the `Shader::getInstance` calls. -/
def Material.setDefine (m : Material) (k : Nat) (enabled : Bool) : Material × List MatEvent :=
  let old_mask := m.define_mask
  let new_mask := if enabled then setMaskBit old_mask k else clearMaskBit old_mask k
  let m1 := { m with define_mask := new_mask }
  if !m1.ready then (m1, [])
  else
    match m1.shader with
    | none => (m1, [])
    | some _ => if old_mask ≠ new_mask then (m1, [MatEvent.getInstance new_mask]) else (m1, [])

/-- `Material::setAlphaRef(value)` (material.cpp lines 648-654). -/
def Material.setAlphaRef (m : Material) (value : F) : Material :=
  let val := floatToUint8 value
  { m with
    alpha_ref := value,
    render_states :=
      (m.render_states &&& ((U64 - 1) ^^^ BGFX_STATE_ALPHA_REF_MASK)) ||| bgfxStateAlphaRef val }

/-- Smallest index of a uniform with the given name hash in a list, if any
(the inner `for (j = i; ...)` search of `Material::onBeforeReady`, relative
to the start of the searched suffix). -/
def findHashIdx (h : Nat) : List Uniform → Option Nat
  | [] => none
  | u :: us => if u.name_hash = h then some 0 else (findHashIdx h us).map (· + 1)

/-- Swap the entries at two indices of a list (both assumed in range). -/
def swapAt (us : List Uniform) (i j : Nat) : List Uniform :=
  (us.set i (us.getD j Uniform.zero)).set j (us.getD i Uniform.zero)

/-- One iteration of the reconciliation loop of `Material::onBeforeReady`
(material.cpp lines 413-438) at shader-uniform index `i`: search
`m_uniforms` from index `i` for a matching name hash and swap it into
position `i`; otherwise append (a copy of slot `i`, or a zero-valued cell
when the array is exhausted) and overwrite slot `i`'s name hash. -/
def reconcileStep (su : ShaderUniform) (i : Nat) (us : List Uniform) : List Uniform :=
  match findHashIdx su.name_hash (us.drop i) with
  | some k => swapAt us i (i + k)
  | none =>
    let us1 := if i < us.length then us ++ [us.getD i Uniform.zero] else us ++ [Uniform.zero]
    us1.set i { us1.getD i Uniform.zero with name_hash := su.name_hash }

/-- The full reconciliation loop over the shader's uniform schema, carrying
the current index `i`. -/
def reconcileGo : List ShaderUniform → Nat → List Uniform → List Uniform
  | [], _, us => us
  | su :: rest, i, us => reconcileGo rest (i + 1) (reconcileStep su i us)

/-- The texture-slot pass of `Material::onBeforeReady` (lines 444-458): for
every slot tied to a define index, set or clear that define bit according
to whether a texture is bound in the slot. -/
def slotDefinePass (texs : List (Option Texture)) : List TextureSlot → Nat → Nat → Nat
  | [], _, mask => mask
  | slot :: rest, i, mask =>
    let mask1 :=
      if slot.define_idx ≥ 0 then
        if (texs.getD i none).isSome then setMaskBit mask slot.define_idx.toNat
        else clearMaskBit mask slot.define_idx.toNat
      else mask
    slotDefinePass texs rest (i + 1) mask1

/-- `Material::onBeforeReady` (material.cpp lines 409-462): reconcile the
uniform table against the shader schema, recompute the render states from
`m_alpha_ref` and the shader's base states, recompute the slot-tied define
bits, regenerate the command buffer and re-resolve the shader instance
(the last two have no observable state here). -/
def Material.onBeforeReady (m : Material) : Material :=
  match m.shader with
  | none => m
  | some s =>
    let us := reconcileGo s.uniforms 0 m.uniforms
    let rs := bgfxStateAlphaRef (floatToUint8 m.alpha_ref) ||| s.render_states
    let mask := slotDefinePass m.textures s.texture_slots 0 m.define_mask
    { m with uniforms := us, render_states := rs, define_mask := mask }

/-- `Material::setTexture(i, texture)` (material.cpp lines 320-352),
returning the new state and the trace of side effects in program order.
The old texture's atlas size is written into the new texture (the stored
slot value reflects that write) before the old texture's dependency is
removed and it is unloaded. -/
def Material.setTexture (m : Material) (i : Nat) (texture : Option Texture) :
    Material × List MatEvent :=
  let old_texture : Option Texture := if i < m.texture_count then m.textures.getD i none else none
  let add_events : List MatEvent :=
    match texture with
    | some t => [MatEvent.addDependency t.path]
    | none => []
  let stored : Option Texture :=
    match old_texture, texture with
    | some o, some t => some { t with atlas_size := o.atlas_size }
    | _, _ => texture
  let m1 := { m with
    textures := m.textures.set i stored,
    texture_count := if m.texture_count ≤ i then i + 1 else m.texture_count }
  let old_events : List MatEvent :=
    match old_texture, texture with
    | some o, some t =>
      [MatEvent.setAtlasSize t.path o.atlas_size, MatEvent.removeDependency o.path,
       MatEvent.unloadRes o.path]
    | some o, none => [MatEvent.removeDependency o.path, MatEvent.unloadRes o.path]
    | none, _ => []
  if m1.ready then
    match m1.shader with
    | some s =>
      let didx := (s.texture_slots.getD i ⟨-1⟩).define_idx
      let mask :=
        if didx ≥ 0 then
          if (m1.textures.getD i none).isSome then setMaskBit m1.define_mask didx.toNat
          else clearMaskBit m1.define_mask didx.toNat
        else m1.define_mask
      ({ m1 with define_mask := mask },
       add_events ++ old_events ++ [MatEvent.createCommandBuffer, MatEvent.getInstance mask])
    | none => (m1, add_events ++ old_events)
  else (m1, add_events ++ old_events)

/-- `Material::setShader(Shader*)` (material.cpp lines 465-488): install the
shader; run `onBeforeReady` at once when it is already ready; a null
argument falls back to the renderer's default shader. -/
def Material.setShaderRes (r : Renderer) (m : Material) (sh : Option Shader) : Material :=
  match sh with
  | some s =>
    let m1 := { m with shader := some s }
    if s.ready then m1.onBeforeReady else m1
  | none => { m with shader := some r.default_shader }

/-- The `Material` constructor (material.cpp lines 26-50): zero counts and
masks, white color, shininess 4, one layer, default alpha reference, all
texture slots empty, then `setShader(nullptr)` (which installs the
renderer's default shader). -/
def Material.new (r : Renderer) : Material :=
  let m : Material :=
    { shader := none, uniforms := [], textures := List.replicate MAX_TEXTURE_COUNT none,
      texture_count := 0, render_states := 0, define_mask := 0, color := ⟨1, 1, 1⟩,
      shininess := 4, alpha_ref := 0, layer_count := 1, ready := false }
  let m := m.setAlphaRef DEFAULT_ALPHA_REF_VALUE
  m.setShaderRes r none

/-- A labelled entry of a `texture` block, as `Material::deserializeTexture`
reads them: the constructor is the label the C++ code compares against,
the payload is the value it then deserializes. -/
inductive TexKey where
  | source (path : String)
  | atlas_size (v : Int)
  | min_filter (s : String)
  | mag_filter (s : String)
  | u_clamp (b : Bool)
  | v_clamp (b : Bool)
  | w_clamp (b : Bool)
  | keep_data (b : Bool)
  | srgb (b : Bool)
  | unknown (label : String)
deriving DecidableEq, Repr

/-- A labelled entry of one object of the `uniforms` array, as
`Material::deserializeUniforms` reads them. -/
inductive UniKey where
  | name (s : String)
  | int_value (v : Int)
  | float_value (v : F)
  | matrix_value (vs : List F)
  | time (v : F)
  | color (v : Vec3)
  | vec3 (v : Vec3)
  | unknown (label : String)
deriving DecidableEq, Repr

/-- A top-level labelled entry of a material document, as `Material::load`
reads them. -/
inductive DocEntry where
  | defines (names : List String)
  | uniforms (objs : List (List UniKey))
  | texture (keys : List TexKey)
  | alpha_ref (v : F)
  | layer_count (v : Int)
  | color (v : Vec3)
  | shininess (v : F)
  | shader (path : String)
  | unknown (label : String)
deriving DecidableEq, Repr

/-- Modelled from the spec: `Path` normalization (core/path.cpp is not in
src/).  Engine paths are stored without a leading separator; the leading
`/` that `Material::save` writes as an absolute-path marker is stripped
again when the loaded string is normalized into a `Path`. -/
def normalizePath (s : String) : String :=
  match s.data with
  | c :: rest => if c = '/' ∨ c = '\\' then String.mk rest else s
  | [] => s

/-- The `source` path resolution of `Material::deserializeTexture` (lines
533-544): a path that does not start with a separator is relative to the
material's directory. -/
def resolveTexturePath (material_dir p : String) : String :=
  match p.data with
  | c :: _ => if c = '/' ∨ c = '\\' then p else material_dir ++ p
  | [] => material_dir ++ p

/-- Modelled from the spec: `ResourceManager::get(TEXTURE)->load(path)`
(texture.cpp is not in src/) hands back the texture resource for the
normalized path; the material then overwrites its flags and atlas size, so
only the path is observable here. -/
def loadTextureRes (p : String) : Texture :=
  { path := normalizePath p, flags := 0, atlas_size := -1, data_refs := 0, has_data := false }

/-- The local parse state of `Material::deserializeTexture`: the texture
slot cell being written (`m_textures[m_texture_count]`), and the local
`flags`, `atlas_size` and `keep_data` variables. -/
structure TexParseState where
  cur : Option Texture
  flags : Nat
  atlas : Int
  keep : Bool
deriving DecidableEq, Repr

/-- Processing of a single `texture`-block entry by
`Material::deserializeTexture` (lines 527-631).  `false` means the label
was unknown and the whole load aborts; an unrecognized filter *value* only
logs an error and continues. -/
def stepTexKey (dir : String) (st : TexParseState) : TexKey → TexParseState × Bool
  | TexKey.source p =>
    (if p = "" then st
     else { st with cur := some (loadTextureRes (resolveTexturePath dir p)) }, true)
  | TexKey.atlas_size v => ({ st with atlas := v }, true)
  | TexKey.min_filter s =>
    ({ st with flags :=
        if s = "point" then st.flags ||| BGFX_TEXTURE_MIN_POINT
        else if s = "anisotropic" then st.flags ||| BGFX_TEXTURE_MIN_ANISOTROPIC
        else st.flags }, true)
  | TexKey.mag_filter s =>
    ({ st with flags :=
        if s = "point" then st.flags ||| BGFX_TEXTURE_MAG_POINT
        else if s = "anisotropic" then st.flags ||| BGFX_TEXTURE_MAG_ANISOTROPIC
        else st.flags }, true)
  | TexKey.u_clamp b => ({ st with flags := if b then st.flags ||| BGFX_TEXTURE_U_CLAMP else st.flags }, true)
  | TexKey.v_clamp b => ({ st with flags := if b then st.flags ||| BGFX_TEXTURE_V_CLAMP else st.flags }, true)
  | TexKey.w_clamp b => ({ st with flags := if b then st.flags ||| BGFX_TEXTURE_W_CLAMP else st.flags }, true)
  | TexKey.keep_data b => ({ st with keep := b }, true)
  | TexKey.srgb b => ({ st with flags := if b then st.flags ||| BGFX_TEXTURE_SRGB else st.flags }, true)
  | TexKey.unknown _ => (st, false)

/-- The `while (!isObjectEnd())` loop over a `texture` block's entries,
stopping at the first unknown label. -/
def processTexKeys (dir : String) : TexParseState → List TexKey → TexParseState × Bool
  | st, [] => (st, true)
  | st, k :: ks =>
    match stepTexKey dir st k with
    | (st1, true) => processTexKeys dir st1 ks
    | (st1, false) => (st1, false)

/-- The write-back after a successfully parsed `texture` block (lines
632-641): apply the parsed atlas size, flags and data retention to the
slot's texture, if one was bound. -/
def finalizeTexCell (st : TexParseState) : Option Texture :=
  match st.cur with
  | some t =>
    some { t with atlas_size := st.atlas, flags := st.flags,
                  data_refs := t.data_refs + (if st.keep then 1 else 0) }
  | none => none

/-- `Material::deserializeTexture` (material.cpp lines 518-645): parse one
`texture` block into the slot at `m_texture_count`.  On an unknown label
the load aborts with the slot cell as written so far and the count not yet
advanced; otherwise the finalized cell is stored and the count advances,
also when no texture was bound (the block still consumes the slot). -/
def Material.deserializeTexture (m : Material) (dir : String) (ks : List TexKey) :
    Material × Bool :=
  match processTexKeys dir (TexParseState.mk (m.textures.getD m.texture_count none) 0 (-1) false) ks with
  | (st, false) => ({ m with textures := m.textures.set m.texture_count st.cur }, false)
  | (st, true) =>
    ({ m with textures := m.textures.set m.texture_count (finalizeTexCell st),
              texture_count := m.texture_count + 1 }, true)

/-- The texture slot value that one `texture` block parsed alone produces
(`Material::deserializeTexture` run against an empty slot). -/
def textureFromBlock (dir : String) (ks : List TexKey) : Option Texture :=
  finalizeTexCell (processTexKeys dir (TexParseState.mk none 0 (-1) false) ks).1

/-- `Material::deserializeDefines` (material.cpp lines 221-234): reset the
mask and OR in one bit per name, resolved through the renderer's table. -/
def Material.deserializeDefines (m : Material) (r : Renderer) (names : List String) : Material :=
  { m with define_mask := names.foldl (fun acc n => setMaskBit acc (r.getShaderDefineIdx n)) 0 }

/-- Processing of a single labelled entry of one `uniforms` object by
`Material::deserializeUniforms` (lines 248-298); an unknown label only logs
a warning. -/
def stepUniKey (u : Uniform) : UniKey → Uniform
  | UniKey.name s => { u with name_hash := crc32 s }
  | UniKey.int_value v => { u with int_value := v }
  | UniKey.float_value v => { u with float_value := v }
  | UniKey.matrix_value vs => { u with matrix := fun i => vs.getD i.val 0 }
  | UniKey.time v => { u with float_value := v }
  | UniKey.color v => { u with vec3 := v }
  | UniKey.vec3 v => { u with vec3 := v }
  | UniKey.unknown _ => u

/-- One object of the `uniforms` array: a zero-valued emplaced cell filled
by its labelled entries in order. -/
def parseUniformObj (ks : List UniKey) : Uniform :=
  ks.foldl stepUniKey Uniform.zero

/-- `Material::deserializeUniforms` (material.cpp lines 237-302): clear the
uniform table and parse each array object in order. -/
def Material.deserializeUniforms (m : Material) (objs : List (List UniKey)) : Material :=
  { m with uniforms := objs.map parseUniformObj }

/-- Processing of one top-level document entry by the `while` loop of
`Material::load` (lines 669-719).  `senv` is the shader cache of the
resource manager (`ResourceManager::get(SHADER)->load(path)` keyed by
path); an unknown label only logs a warning. -/
def Material.loadEntry (m : Material) (r : Renderer) (senv : String → Shader) (dir : String) :
    DocEntry → Material × Bool
  | DocEntry.defines names => (m.deserializeDefines r names, true)
  | DocEntry.uniforms objs => (m.deserializeUniforms objs, true)
  | DocEntry.texture ks => m.deserializeTexture dir ks
  | DocEntry.alpha_ref v => ({ m with alpha_ref := v }, true)
  | DocEntry.layer_count v => ({ m with layer_count := v }, true)
  | DocEntry.color v => ({ m with color := v }, true)
  | DocEntry.shininess v => ({ m with shininess := v }, true)
  | DocEntry.shader p => (m.setShaderRes r (some (senv p)), true)
  | DocEntry.unknown _ => (m, true)

/-- The entry loop of `Material::load`: process entries in document order,
aborting at the first failing one. -/
def loadLoop (r : Renderer) (senv : String → Shader) (dir : String) :
    Material → List DocEntry → Material × Bool
  | m, [] => (m, true)
  | m, e :: es =>
    match m.loadEntry r senv dir e with
    | (m1, true) => loadLoop r senv dir m1 es
    | (m1, false) => (m1, false)

/-- The state reset at the top of `Material::load` (lines 661-663):
`m_render_states = 0; setAlphaRef(DEFAULT_ALPHA_REF_VALUE); m_uniforms.clear()`. -/
def Material.loadInit (m : Material) : Material :=
  { ({ m with render_states := 0 } : Material).setAlphaRef DEFAULT_ALPHA_REF_VALUE with
    uniforms := [] }

/-- `Material::load` (material.cpp lines 657-730): reset the render states,
the alpha reference and the uniform table, process the document entries in
order, and fail afterwards when no shader is set. -/
def Material.load (m : Material) (r : Renderer) (senv : String → Shader) (dir : String)
    (doc : List DocEntry) : Material × Bool :=
  match loadLoop r senv dir m.loadInit doc with
  | (m4, false) => (m4, false)
  | (m4, true) => if m4.shader.isNone then (m4, false) else (m4, true)

/-- The `texture` block `Material::save` writes for one slot (lines
124-153): always a `source` (empty when no texture is bound), then the
positive atlas size and each set flag bit as its own entry. -/
def saveTextureBlock (cell : Option Texture) : List TexKey :=
  match cell with
  | none => [TexKey.source ""]
  | some t =>
    [TexKey.source ("/" ++ t.path)]
    ++ (if t.atlas_size > 0 then [TexKey.atlas_size t.atlas_size] else [])
    ++ (if t.flags &&& BGFX_TEXTURE_SRGB ≠ 0 then [TexKey.srgb true] else [])
    ++ (if t.flags &&& BGFX_TEXTURE_U_CLAMP ≠ 0 then [TexKey.u_clamp true] else [])
    ++ (if t.flags &&& BGFX_TEXTURE_V_CLAMP ≠ 0 then [TexKey.v_clamp true] else [])
    ++ (if t.flags &&& BGFX_TEXTURE_W_CLAMP ≠ 0 then [TexKey.w_clamp true] else [])
    ++ (if t.flags &&& BGFX_TEXTURE_MIN_POINT ≠ 0 then [TexKey.min_filter "point"] else [])
    ++ (if t.flags &&& BGFX_TEXTURE_MIN_ANISOTROPIC ≠ 0 then [TexKey.min_filter "anisotropic"] else [])
    ++ (if t.flags &&& BGFX_TEXTURE_MAG_POINT ≠ 0 then [TexKey.mag_filter "point"] else [])
    ++ (if t.flags &&& BGFX_TEXTURE_MAG_ANISOTROPIC ≠ 0 then [TexKey.mag_filter "anisotropic"] else [])
    ++ (if t.has_data then [TexKey.keep_data true] else [])

/-- The `defines` array `Material::save` writes (lines 155-160): the name
of every set bit of the 32-bit mask, in ascending bit order. -/
def savedDefineNames (r : Renderer) (mask : Nat) : List String :=
  (List.range 32).filterMap fun i =>
    if mask.testBit i then some (r.getShaderDefine i) else none

/-- One object of the `uniforms` array `Material::save` writes (lines
162-207): the shader-schema name and a type-tagged value taken from the
material's parallel uniform cell (`time` is written as the constant 0). -/
def saveUniformObj (s : Shader) (m : Material) (i : Nat) : List UniKey :=
  let su := s.uniforms.getD i ⟨"", 0, UniformType.FLOAT⟩
  let u := m.uniforms.getD i Uniform.zero
  UniKey.name su.name ::
  (match su.type with
   | UniformType.FLOAT => [UniKey.float_value u.float_value]
   | UniformType.COLOR => [UniKey.color u.vec3]
   | UniformType.VEC3 => [UniKey.vec3 u.vec3]
   | UniformType.TIME => [UniKey.time 0]
   | UniformType.INT => [UniKey.int_value u.int_value]
   | UniformType.MATRIX4 => [UniKey.matrix_value (List.ofFn u.matrix)])

/-- `Material::save` (material.cpp lines 113-218): nothing is written and
`false` is returned unless the material is ready and has a shader;
otherwise the document mirrors the load schema, with `layer_count` only
when it differs from 1 and one `texture` block per occupied slot. -/
def Material.save (m : Material) (r : Renderer) : List DocEntry × Bool :=
  if !m.ready then ([], false)
  else
    match m.shader with
    | none => ([], false)
    | some s =>
      ([DocEntry.shader s.path]
       ++ (if m.layer_count ≠ 1 then [DocEntry.layer_count m.layer_count] else [])
       ++ (List.range m.texture_count).map
            (fun i => DocEntry.texture (saveTextureBlock (m.textures.getD i none)))
       ++ [DocEntry.defines (savedDefineNames r m.define_mask)]
       ++ [DocEntry.uniforms ((List.range s.uniforms.length).map (saveUniformObj s m))]
       ++ [DocEntry.shininess m.shininess, DocEntry.alpha_ref m.alpha_ref,
           DocEntry.color m.color], true)

/-- Whether a `texture`-block entry is an unrecognized key (the abort case
of `Material::deserializeTexture`). -/
def TexKey.isUnknownKey : TexKey → Bool
  | TexKey.unknown _ => true
  | _ => false

/-- A `texture` block none of whose keys is unrecognized. -/
def texBlockClean (ks : List TexKey) : Bool :=
  ks.all fun k => ! k.isUnknownKey

/-- A document none of whose `texture` blocks holds an unrecognized key
(the only way `Material::load` can fail while parsing). -/
def docTexClean (doc : List DocEntry) : Bool :=
  doc.all fun e =>
    match e with
    | DocEntry.texture ks => texBlockClean ks
    | _ => true

/-- Whether a top-level entry is a `texture` block. -/
def DocEntry.isTextureEntry : DocEntry → Bool
  | DocEntry.texture _ => true
  | _ => false

/-- Whether a document carries a top-level `shader` key. -/
def docHasShaderEntry (doc : List DocEntry) : Bool :=
  doc.any fun e =>
    match e with
    | DocEntry.shader _ => true
    | _ => false

/-- The `texture` blocks of a document, in document order. -/
def docTextureBlocks (doc : List DocEntry) : List (List TexKey) :=
  doc.filterMap fun e =>
    match e with
    | DocEntry.texture ks => some ks
    | _ => none

/-- A `texture` block that never binds a texture: every `source` key (if
any) carries the empty path. -/
def texBlockNoSource (ks : List TexKey) : Bool :=
  ks.all fun k =>
    match k with
    | TexKey.source p => p == ""
    | _ => true

/-- The observable part of a texture slot compared by the round-trip
property: resource path and flag bitmask. -/
def texPathFlags (cell : Option Texture) : Option (String × Nat) :=
  cell.map fun t => (t.path, t.flags)

/-- Equality of two material uniform cells as values of a given shader
uniform type: only the field that the type makes meaningful is compared
(a TIME uniform has no stored value — it is resolved per frame). -/
def uniformValuesMatch (t : UniformType) (a b : Uniform) : Prop :=
  match t with
  | UniformType.FLOAT => a.float_value = b.float_value
  | UniformType.COLOR => a.vec3 = b.vec3
  | UniformType.VEC3 => a.vec3 = b.vec3
  | UniformType.TIME => True
  | UniformType.INT => a.int_value = b.int_value
  | UniformType.MATRIX4 => a.matrix = b.matrix

/-! ## Concrete sample objects used to instantiate the theorems -/

/-- The document of the spec's §8 load scenario: a shader, one sRGB texture
block and `alpha_ref: 0.5`. -/
def c5doc : List DocEntry :=
  [DocEntry.shader "/shaders/default.shd",
   DocEntry.texture [TexKey.source "t.dds", TexKey.srgb true],
   DocEntry.alpha_ref ⟨1, 2⟩]

/-- A concrete shader used as the engine default shader in examples. -/
def sampleDefaultShader : Shader :=
  { path := "shaders/default.shd", uniforms := [], texture_slots := [],
    render_states := 0, ready := false }

/-- A concrete renderer with a two-entry define name table. -/
def sampleRenderer : Renderer :=
  { shader_defines := ["ALPHA_CUTOUT", "SHADOW"], default_shader := sampleDefaultShader }

/-- A concrete ready shader with a small uniform schema and one texture
slot tied to define index 1. -/
def sampleShader : Shader :=
  { path := "shaders/test.shd",
    uniforms := [⟨"u_roughness", crc32 "u_roughness", UniformType.FLOAT⟩,
                 ⟨"u_tint", crc32 "u_tint", UniformType.COLOR⟩],
    texture_slots := [⟨1⟩],
    render_states := 0, ready := true }

/-- A concrete texture with savable flags, as if bound at slot 0. -/
def sampleTexture : Texture :=
  { path := "textures/t.dds", flags := BGFX_TEXTURE_SRGB ||| BGFX_TEXTURE_U_CLAMP,
    atlas_size := -1, data_refs := 0, has_data := false }

/-- The shader cache: every path resolves to `sampleShader` except the
default shader's own path. -/
def sampleSenv : String → Shader := fun p =>
  if p = "shaders/default.shd" then sampleDefaultShader else sampleShader

/-- A concrete READY material consistent with `sampleShader`: uniform table
aligned with the schema, one texture bound, define bit 1 set (the slot-tied
bit for the occupied slot 0). -/
def sampleMaterial : Material :=
  { shader := some sampleShader,
    uniforms := [{ Uniform.zero with name_hash := crc32 "u_roughness", float_value := ⟨1, 4⟩ },
                 { Uniform.zero with name_hash := crc32 "u_tint", vec3 := ⟨1, 0, ⟨1, 2⟩⟩ }],
    textures := (some sampleTexture) :: List.replicate 15 none,
    texture_count := 1,
    render_states := 0, define_mask := 2, color := ⟨1, 1, 1⟩, shininess := 4,
    alpha_ref := ⟨3, 10⟩, layer_count := 1, ready := true }

/-! ## Bitmask helper lemmas -/

theorem testBit_setMaskBit (mask k j : Nat) :
    (setMaskBit mask k).testBit j =
      (decide (j < 32) && (mask.testBit j || decide (k = j))) := by
  unfold setMaskBit U32
  rw [Nat.testBit_mod_two_pow, Nat.testBit_or, Nat.one_shiftLeft, Nat.testBit_two_pow]

theorem testBit_clearMaskBit (mask k j : Nat) :
    (clearMaskBit mask k).testBit j =
      (mask.testBit j && (decide (j < 32) && !decide (k = j))) := by
  simp only [clearMaskBit, U32, Nat.testBit_and, Nat.testBit_xor, Nat.testBit_two_pow_sub_one,
    Nat.testBit_mod_two_pow, Nat.one_shiftLeft, Nat.testBit_two_pow]
  by_cases h1 : j < 32 <;> by_cases h2 : k = j <;> simp [h1, h2]

theorem setMaskBit_lt (mask k : Nat) : setMaskBit mask k < U32 :=
  Nat.mod_lt _ (by simp [U32])

theorem clearMaskBit_lt (mask k : Nat) (h : mask < U32) : clearMaskBit mask k < U32 :=
  Nat.lt_of_le_of_lt (Nat.and_le_left) h

theorem testBit_eq_false_of_lt_U32 {mask : Nat} (h : mask < U32) {j : Nat} (hj : 32 ≤ j) :
    mask.testBit j = false :=
  Nat.testBit_lt_two_pow (Nat.lt_of_lt_of_le h (Nat.pow_le_pow_right (by norm_num) hj))

theorem setMaskBit_eq_self {mask k : Nat} (h : mask < U32)
    (hbit : mask.testBit k = true) : setMaskBit mask k = mask := by
  apply Nat.eq_of_testBit_eq
  intro j
  rw [testBit_setMaskBit]
  by_cases h1 : j < 32
  · by_cases h2 : k = j
    · subst h2; simp [h1, hbit]
    · simp [h1, h2]
  · simp [h1, testBit_eq_false_of_lt_U32 h (Nat.le_of_not_lt h1)]

theorem setMaskBit_ne_self {mask k : Nat} (hk : k < 32) (hbit : mask.testBit k = false) :
    setMaskBit mask k ≠ mask := by
  intro he
  have := congrArg (fun x => x.testBit k) he
  simp only [testBit_setMaskBit, hbit] at this
  simp [hk] at this

theorem clearMaskBit_eq_self {mask k : Nat} (h : mask < U32)
    (hbit : mask.testBit k = false) : clearMaskBit mask k = mask := by
  apply Nat.eq_of_testBit_eq
  intro j
  rw [testBit_clearMaskBit]
  by_cases h1 : j < 32
  · by_cases h2 : k = j
    · subst h2; simp [hbit]
    · simp [h1, h2]
  · simp [h1, testBit_eq_false_of_lt_U32 h (Nat.le_of_not_lt h1)]

theorem clearMaskBit_ne_self {mask k : Nat} (hbit : mask.testBit k = true) :
    clearMaskBit mask k ≠ mask := by
  intro he
  have := congrArg (fun x => x.testBit k) he
  simp only [testBit_clearMaskBit, hbit] at this
  simp at this

theorem setMaskBit_idem (mask k : Nat) : setMaskBit (setMaskBit mask k) k = setMaskBit mask k := by
  apply Nat.eq_of_testBit_eq
  intro j
  simp only [testBit_setMaskBit]
  by_cases h1 : j < 32 <;> by_cases h2 : k = j <;> simp [h1, h2]

theorem clearMaskBit_idem (mask k : Nat) :
    clearMaskBit (clearMaskBit mask k) k = clearMaskBit mask k := by
  apply Nat.eq_of_testBit_eq
  intro j
  simp only [testBit_clearMaskBit]
  by_cases h1 : j < 32 <;> by_cases h2 : k = j <;> simp [h1, h2]

/-- `Material::isDefined` reads exactly bit `k` of the define mask. -/
theorem isDefined_eq_testBit (m : Material) (k : Nat) :
    m.isDefined k = m.define_mask.testBit k := by
  unfold Material.isDefined
  rw [Nat.one_shiftLeft, Nat.and_two_pow]
  cases h : m.define_mask.testBit k <;> simp [h, Nat.ne_of_gt (Nat.two_pow_pos k)]

theorem ite_pair_fst {α β : Type} (c : Prop) [Decidable c] (a : α) (x y : β) :
    (if c then (a, x) else (a, y)).1 = a := by
  split <;> rfl

theorem ite_pair_snd {α β : Type} (c : Prop) [Decidable c] (a : α) (x y : β) :
    (if c then (a, x) else (a, y)).2 = if c then x else y := by
  split <;> rfl

/-- `setDefine` always produces the toggled mask in the returned state,
whatever the readiness branch taken afterwards. -/
theorem setDefine_fst (m : Material) (k : Nat) (e : Bool) :
    (m.setDefine k e).1 =
      { m with define_mask :=
          if e then setMaskBit m.define_mask k else clearMaskBit m.define_mask k } := by
  cases hr : m.ready <;> cases hs : m.shader <;>
    simp [Material.setDefine, hr, hs, ite_pair_fst]

/-- On a ready material with a shader, `setDefine` re-resolves the shader
instance exactly when the mask changed. -/
theorem setDefine_snd_ready (m : Material) (k : Nat) (e : Bool) {s : Shader}
    (hr : m.ready = true) (hs : m.shader = some s) :
    (m.setDefine k e).2 =
      (if m.define_mask ≠ (if e then setMaskBit m.define_mask k else clearMaskBit m.define_mask k)
       then [MatEvent.getInstance
              (if e then setMaskBit m.define_mask k else clearMaskBit m.define_mask k)]
       else []) := by
  simp [Material.setDefine, hr, hs, ite_pair_snd]

/-! ## C9 — save on a non-ready or shaderless material -/

/-- C9: `Material::save` called on a material that is not READY, or whose
shader pointer is null, returns false and writes nothing to the serializer
(the output document stays empty). -/
theorem save_requires_ready_shader (m : Material) (r : Renderer)
    (h : m.ready = false ∨ m.shader = none) : m.save r = ([], false) := by
  rcases h with h | h
  · simp [Material.save, h]
  · cases hr : m.ready <;> simp [Material.save, h, hr]

/-- Witness for C9 at a concrete non-ready material. -/
theorem save_requires_ready_shader_witness :
    (Material.new sampleRenderer).save sampleRenderer = ([], false) :=
  save_requires_ready_shader (Material.new sampleRenderer) sampleRenderer (Or.inl (by decide))

/-! ## C10 — setDefine updates the mask bit unconditionally -/

/-- C10: after `setDefine(k, e)` the bit read back by `isDefined(k)` equals
`e` regardless of readiness; when the material is not ready or has no
shader only the shader-instance re-resolution is skipped. -/
theorem setDefine_updates_mask_unconditionally (m : Material) (k : Nat) (e : Bool)
    (hk : k < 32) :
    (m.setDefine k e).1.isDefined k = e ∧
      ((m.ready = false ∨ m.shader = none) → (m.setDefine k e).2 = []) := by
  constructor
  · rw [setDefine_fst, isDefined_eq_testBit]
    cases e
    · simp [testBit_clearMaskBit]
    · simp [testBit_setMaskBit, hk]
  · intro h
    rcases h with h | h
    · simp [Material.setDefine, h]
    · cases hr : m.ready <;> simp [Material.setDefine, h, hr]

/-- Witness for C10 at a concrete non-ready material and define index 3. -/
theorem setDefine_updates_mask_unconditionally_witness :
    ((Material.new sampleRenderer).setDefine 3 true).1.isDefined 3 = true ∧
      (((Material.new sampleRenderer).ready = false ∨ (Material.new sampleRenderer).shader = none) →
        ((Material.new sampleRenderer).setDefine 3 true).2 = []) :=
  setDefine_updates_mask_unconditionally (Material.new sampleRenderer) 3 true (by decide)

/-! ## C6 — idempotent define toggles resolve the instance at most once -/

/-- C6: calling `setDefine(k, e)` twice in a row with the same arguments on
a ready material with a shader re-resolves the shader instance exactly once
— on the first call, and only if the bit actually changed; the second call
leaves the mask (indeed the whole state) unchanged and resolves nothing. -/
theorem setDefine_idempotent_resolution (m : Material) (s : Shader) (k : Nat) (e : Bool)
    (hr : m.ready = true) (hs : m.shader = some s) (hk : k < 32) (hm : m.define_mask < U32) :
    ((m.setDefine k e).1.setDefine k e).1 = (m.setDefine k e).1 ∧
    ((m.setDefine k e).1.setDefine k e).2 = [] ∧
    (m.setDefine k e).2 =
      (if m.isDefined k = e then []
       else [MatEvent.getInstance (m.setDefine k e).1.define_mask]) := by
  have hfst := setDefine_fst m k e
  have hr1 : (m.setDefine k e).1.ready = true := by rw [hfst]; exact hr
  have hs1 : (m.setDefine k e).1.shader = some s := by rw [hfst]; exact hs
  have hmask1 : (m.setDefine k e).1.define_mask =
      (if e then setMaskBit m.define_mask k else clearMaskBit m.define_mask k) := by
    rw [hfst]
  have hidem : (if e then setMaskBit (m.setDefine k e).1.define_mask k
      else clearMaskBit (m.setDefine k e).1.define_mask k) = (m.setDefine k e).1.define_mask := by
    rw [hmask1]
    cases e
    · simp [clearMaskBit_idem]
    · simp [setMaskBit_idem]
  refine ⟨?_, ?_, ?_⟩
  · rw [setDefine_fst ((m.setDefine k e).1) k e, hidem]
  · rw [setDefine_snd_ready ((m.setDefine k e).1) k e hr1 hs1, hidem]
    simp
  · rw [setDefine_snd_ready m k e hr hs, isDefined_eq_testBit, hmask1]
    cases e
    · cases hbit : m.define_mask.testBit k
      · simp [clearMaskBit_eq_self hm hbit]
      · simp [Ne.symm (clearMaskBit_ne_self hbit)]
    · cases hbit : m.define_mask.testBit k
      · simp [Ne.symm (setMaskBit_ne_self hk hbit)]
      · simp [setMaskBit_eq_self hm hbit]

/-- Witness for C6: a concrete ready material, toggling define 0 on. -/
theorem setDefine_idempotent_resolution_witness :
    ((sampleMaterial.setDefine 0 true).1.setDefine 0 true).1 = (sampleMaterial.setDefine 0 true).1 ∧
    ((sampleMaterial.setDefine 0 true).1.setDefine 0 true).2 = [] ∧
    (sampleMaterial.setDefine 0 true).2 =
      (if sampleMaterial.isDefined 0 = true then []
       else [MatEvent.getInstance (sampleMaterial.setDefine 0 true).1.define_mask]) :=
  setDefine_idempotent_resolution sampleMaterial sampleShader 0 true rfl rfl
    (by decide) (by decide)

/-! ## List indexing helper lemmas -/

theorem getD_set_eq {α : Type} (l : List α) (i : Nat) (a d : α) (h : i < l.length) :
    (l.set i a).getD i d = a := by
  induction l generalizing i with
  | nil => simp at h
  | cons hd tl ih =>
    cases i with
    | zero => rfl
    | succ j => simpa using ih j (by simpa using h)

theorem getD_set_ne {α : Type} (l : List α) (i j : Nat) (a d : α) (h : i ≠ j) :
    (l.set i a).getD j d = l.getD j d := by
  induction l generalizing i j with
  | nil => rfl
  | cons hd tl ih =>
    cases i with
    | zero =>
      cases j with
      | zero => exact absurd rfl h
      | succ j2 => rfl
    | succ i2 =>
      cases j with
      | zero => rfl
      | succ j2 => simpa using ih i2 j2 (fun he => h (by rw [he]))

theorem getD_append_lt {α : Type} (l l2 : List α) (j : Nat) (d : α) (h : j < l.length) :
    (l ++ l2).getD j d = l.getD j d := by
  induction l generalizing j with
  | nil => simp at h
  | cons hd tl ih =>
    cases j with
    | zero => rfl
    | succ j2 => simpa using ih j2 (by simpa using h)

theorem getD_drop {α : Type} (l : List α) (i k : Nat) (d : α) :
    (l.drop i).getD k d = l.getD (i + k) d := by
  induction l generalizing i with
  | nil => simp
  | cons hd tl ih =>
    cases i with
    | zero => simp
    | succ i2 =>
      have : i2 + 1 + k = (i2 + k) + 1 := by omega
      rw [this]
      simpa using ih i2

/-! ## Reconciliation lemmas (Material::onBeforeReady, uniform loop) -/

theorem findHashIdx_some {h : Nat} {l : List Uniform} {k : Nat}
    (hf : findHashIdx h l = some k) :
    k < l.length ∧ (l.getD k Uniform.zero).name_hash = h := by
  induction l generalizing k with
  | nil => simp [findHashIdx] at hf
  | cons u us ih =>
    by_cases hu : u.name_hash = h
    · simp [findHashIdx, hu] at hf
      subst hf
      exact ⟨Nat.succ_pos _, hu⟩
    · simp [findHashIdx, hu] at hf
      obtain ⟨k2, hk2, rfl⟩ := hf
      obtain ⟨h1, h2⟩ := ih hk2
      exact ⟨by simpa using h1, by simpa using h2⟩

theorem swapAt_length (us : List Uniform) (i j : Nat) :
    (swapAt us i j).length = us.length := by
  simp [swapAt]

theorem reconcileStep_found {su : ShaderUniform} {i : Nat} {us : List Uniform} {k : Nat}
    (hf : findHashIdx su.name_hash (us.drop i) = some k) :
    reconcileStep su i us = swapAt us i (i + k) := by
  unfold reconcileStep
  rw [hf]

theorem reconcileStep_notfound {su : ShaderUniform} {i : Nat} {us : List Uniform}
    (hf : findHashIdx su.name_hash (us.drop i) = none) :
    reconcileStep su i us =
      (if i < us.length then us ++ [us.getD i Uniform.zero] else us ++ [Uniform.zero]).set i
        { (if i < us.length then us ++ [us.getD i Uniform.zero]
           else us ++ [Uniform.zero]).getD i Uniform.zero with name_hash := su.name_hash } := by
  unfold reconcileStep
  rw [hf]

theorem reconcileStep_length {su : ShaderUniform} {i : Nat} {us : List Uniform}
    (h : i ≤ us.length) : i + 1 ≤ (reconcileStep su i us).length := by
  cases hf : findHashIdx su.name_hash (us.drop i) with
  | some k =>
    have hk := (findHashIdx_some hf).1
    simp only [List.length_drop] at hk
    rw [reconcileStep_found hf, swapAt_length]
    omega
  | none =>
    rw [reconcileStep_notfound hf]
    by_cases hlen : i < us.length <;> simp [hlen] <;> omega

theorem reconcileStep_hash {su : ShaderUniform} {i : Nat} {us : List Uniform}
    (h : i ≤ us.length) :
    ((reconcileStep su i us).getD i Uniform.zero).name_hash = su.name_hash := by
  cases hf : findHashIdx su.name_hash (us.drop i) with
  | some k =>
    obtain ⟨hk, hhash⟩ := findHashIdx_some hf
    simp only [List.length_drop] at hk
    rw [getD_drop] at hhash
    rw [reconcileStep_found hf]
    unfold swapAt
    by_cases hk0 : k = 0
    · subst hk0
      simp only [Nat.add_zero] at hhash ⊢
      rw [getD_set_eq _ _ _ _ (by simp; omega)]
      exact hhash
    · rw [getD_set_ne _ _ _ _ _ (by omega), getD_set_eq _ _ _ _ (by omega)]
      exact hhash
  | none =>
    rw [reconcileStep_notfound hf]
    by_cases hlen : i < us.length <;>
      simp only [hlen, if_true, if_false] <;>
        rw [getD_set_eq _ _ _ _ (by simp; omega)]

theorem reconcileStep_below {su : ShaderUniform} {i : Nat} {us : List Uniform}
    (h : i ≤ us.length) (j : Nat) (hj : j < i) :
    (reconcileStep su i us).getD j Uniform.zero = us.getD j Uniform.zero := by
  cases hf : findHashIdx su.name_hash (us.drop i) with
  | some k =>
    rw [reconcileStep_found hf]
    unfold swapAt
    rw [getD_set_ne _ _ _ _ _ (by omega), getD_set_ne _ _ _ _ _ (by omega)]
  | none =>
    rw [reconcileStep_notfound hf]
    by_cases hlen : i < us.length <;>
      simp only [hlen, if_true, if_false] <;>
        rw [getD_set_ne _ _ _ _ _ (by omega), getD_append_lt _ _ _ _ (by omega)]

theorem reconcileGo_below (sus : List ShaderUniform) (i : Nat) (us : List Uniform)
    (h : i ≤ us.length) (j : Nat) (hj : j < i) :
    (reconcileGo sus i us).getD j Uniform.zero = us.getD j Uniform.zero := by
  induction sus generalizing i us with
  | nil => rfl
  | cons su rest ih =>
    show (reconcileGo rest (i + 1) (reconcileStep su i us)).getD j Uniform.zero = _
    rw [ih (i + 1) (reconcileStep su i us) (reconcileStep_length h) (by omega)]
    exact reconcileStep_below h j hj

theorem reconcile_aligns (sus : List ShaderUniform) (i : Nat) (us : List Uniform)
    (h : i ≤ us.length) (k : Nat) (hk : k < sus.length) :
    ((reconcileGo sus i us).getD (i + k) Uniform.zero).name_hash =
      (sus.getD k ⟨"", 0, UniformType.FLOAT⟩).name_hash := by
  induction sus generalizing i us k with
  | nil => simp at hk
  | cons su rest ih =>
    show ((reconcileGo rest (i + 1) (reconcileStep su i us)).getD (i + k) Uniform.zero).name_hash = _
    cases k with
    | zero =>
      simp only [Nat.add_zero]
      rw [reconcileGo_below rest (i + 1) (reconcileStep su i us) (reconcileStep_length h) i
        (by omega)]
      exact reconcileStep_hash h
    | succ k2 =>
      have harith : i + (k2 + 1) = (i + 1) + k2 := by omega
      rw [harith]
      rw [ih (i + 1) (reconcileStep su i us) (reconcileStep_length h) k2 (by simpa using hk)]
      rfl

/-! ## C1 — onBeforeReady index-aligns the uniform table with the shader schema -/

/-- C1: for every material whose shader is present when `onBeforeReady`
runs, afterwards the uniform entry at every schema index `i` carries the
same name hash as the shader's declared uniform at `i`, whatever uniform
entries (in whatever order, with extras or omissions) were parsed before. -/
theorem onBeforeReady_aligns_uniforms (m : Material) (s : Shader)
    (hs : m.shader = some s) (i : Nat) (hi : i < s.uniforms.length) :
    (m.onBeforeReady.uniforms.getD i Uniform.zero).name_hash =
      (s.uniforms.getD i ⟨"", 0, UniformType.FLOAT⟩).name_hash := by
  have hu : m.onBeforeReady.uniforms = reconcileGo s.uniforms 0 m.uniforms := by
    simp [Material.onBeforeReady, hs]
  rw [hu]
  simpa using reconcile_aligns s.uniforms 0 m.uniforms (Nat.zero_le _) i hi

/-- Witness for C1: a concrete material whose parsed uniforms are in the
wrong order and miss one schema entry. -/
theorem onBeforeReady_aligns_uniforms_witness :
    ((({ sampleMaterial with
          uniforms := [{ Uniform.zero with name_hash := crc32 "u_tint", vec3 := ⟨1, 0, 0⟩ }] }
        : Material).onBeforeReady.uniforms.getD 0 Uniform.zero).name_hash =
      (sampleShader.uniforms.getD 0 ⟨"", 0, UniformType.FLOAT⟩).name_hash) :=
  onBeforeReady_aligns_uniforms _ sampleShader rfl 0 (by decide)

/-! ## Field-preservation lemmas for the load machinery -/

theorem onBeforeReady_shader (m : Material) : m.onBeforeReady.shader = m.shader := by
  cases hs : m.shader <;> simp [Material.onBeforeReady, hs]

theorem onBeforeReady_textures (m : Material) : m.onBeforeReady.textures = m.textures := by
  cases hs : m.shader <;> simp [Material.onBeforeReady, hs]

theorem onBeforeReady_texture_count (m : Material) :
    m.onBeforeReady.texture_count = m.texture_count := by
  cases hs : m.shader <;> simp [Material.onBeforeReady, hs]

theorem onBeforeReady_alpha_ref (m : Material) : m.onBeforeReady.alpha_ref = m.alpha_ref := by
  cases hs : m.shader <;> simp [Material.onBeforeReady, hs]

theorem onBeforeReady_shininess (m : Material) : m.onBeforeReady.shininess = m.shininess := by
  cases hs : m.shader <;> simp [Material.onBeforeReady, hs]

theorem onBeforeReady_color (m : Material) : m.onBeforeReady.color = m.color := by
  cases hs : m.shader <;> simp [Material.onBeforeReady, hs]

theorem onBeforeReady_layer_count (m : Material) :
    m.onBeforeReady.layer_count = m.layer_count := by
  cases hs : m.shader <;> simp [Material.onBeforeReady, hs]

theorem onBeforeReady_ready (m : Material) : m.onBeforeReady.ready = m.ready := by
  cases hs : m.shader <;> simp [Material.onBeforeReady, hs]

/-- `onBeforeReady` against a present shader: the uniforms are the
reconciled table. -/
theorem onBeforeReady_uniforms_of_shader {m : Material} {s : Shader} (hs : m.shader = some s) :
    m.onBeforeReady.uniforms = reconcileGo s.uniforms 0 m.uniforms := by
  simp [Material.onBeforeReady, hs]

/-- `onBeforeReady` against a present shader: the recomputed render states. -/
theorem onBeforeReady_render_states_of_shader {m : Material} {s : Shader}
    (hs : m.shader = some s) :
    m.onBeforeReady.render_states =
      bgfxStateAlphaRef (floatToUint8 m.alpha_ref) ||| s.render_states := by
  simp [Material.onBeforeReady, hs]

theorem setShaderRes_some_shader (m : Material) (r : Renderer) (s : Shader) :
    (m.setShaderRes r (some s)).shader = some s := by
  by_cases hr : s.ready <;> simp [Material.setShaderRes, hr, onBeforeReady_shader]

theorem setShaderRes_some_textures (m : Material) (r : Renderer) (s : Shader) :
    (m.setShaderRes r (some s)).textures = m.textures := by
  by_cases hr : s.ready <;> simp [Material.setShaderRes, hr, onBeforeReady_textures]

theorem setShaderRes_some_texture_count (m : Material) (r : Renderer) (s : Shader) :
    (m.setShaderRes r (some s)).texture_count = m.texture_count := by
  by_cases hr : s.ready <;> simp [Material.setShaderRes, hr, onBeforeReady_texture_count]

theorem setShaderRes_some_alpha_ref (m : Material) (r : Renderer) (s : Shader) :
    (m.setShaderRes r (some s)).alpha_ref = m.alpha_ref := by
  by_cases hr : s.ready <;> simp [Material.setShaderRes, hr, onBeforeReady_alpha_ref]

theorem setShaderRes_some_shininess (m : Material) (r : Renderer) (s : Shader) :
    (m.setShaderRes r (some s)).shininess = m.shininess := by
  by_cases hr : s.ready <;> simp [Material.setShaderRes, hr, onBeforeReady_shininess]

theorem setShaderRes_some_color (m : Material) (r : Renderer) (s : Shader) :
    (m.setShaderRes r (some s)).color = m.color := by
  by_cases hr : s.ready <;> simp [Material.setShaderRes, hr, onBeforeReady_color]

theorem setShaderRes_some_layer_count (m : Material) (r : Renderer) (s : Shader) :
    (m.setShaderRes r (some s)).layer_count = m.layer_count := by
  by_cases hr : s.ready <;> simp [Material.setShaderRes, hr, onBeforeReady_layer_count]

theorem setShaderRes_some_ready (m : Material) (r : Renderer) (s : Shader) :
    (m.setShaderRes r (some s)).ready = m.ready := by
  by_cases hr : s.ready <;> simp [Material.setShaderRes, hr, onBeforeReady_ready]

/-! ## deserializeTexture and loadLoop step lemmas -/

/-- A non-unknown `texture`-block key never aborts. -/
theorem stepTexKey_ok (dir : String) (st : TexParseState) (k : TexKey)
    (h : k.isUnknownKey = false) : (stepTexKey dir st k).2 = true := by
  cases k <;> simp_all [TexKey.isUnknownKey, stepTexKey]

theorem processTexKeys_cons_ok {dir : String} {st : TexParseState} {k : TexKey}
    (ks : List TexKey) (h : (stepTexKey dir st k).2 = true) :
    processTexKeys dir st (k :: ks) = processTexKeys dir (stepTexKey dir st k).1 ks := by
  cases hst : stepTexKey dir st k with
  | mk st1 b =>
    rw [hst] at h
    subst h
    simp [processTexKeys, hst]

theorem texBlockClean_cons (k : TexKey) (ks : List TexKey) :
    texBlockClean (k :: ks) = (! k.isUnknownKey && texBlockClean ks) := by
  simp [texBlockClean, List.all_cons]

theorem docTexClean_cons (e : DocEntry) (es : List DocEntry) :
    docTexClean (e :: es) =
      ((match e with
        | DocEntry.texture ks => texBlockClean ks
        | _ => true) && docTexClean es) := by
  simp [docTexClean, List.all_cons]

theorem docHasShaderEntry_cons (e : DocEntry) (es : List DocEntry) :
    docHasShaderEntry (e :: es) =
      ((match e with
        | DocEntry.shader _ => true
        | _ => false) || docHasShaderEntry es) := by
  simp [docHasShaderEntry, List.any_cons]

/-- A clean block parses to success. -/
theorem processTexKeys_clean_ok {dir : String} (ks : List TexKey)
    (h : texBlockClean ks = true) :
    ∀ st : TexParseState, (processTexKeys dir st ks).2 = true := by
  induction ks with
  | nil => intro st; rfl
  | cons k ks ih =>
    intro st
    rw [texBlockClean_cons, Bool.and_eq_true] at h
    have hk : k.isUnknownKey = false := by
      cases hkk : k.isUnknownKey
      · rfl
      · rw [hkk] at h; simp at h
    rw [processTexKeys_cons_ok ks (stepTexKey_ok dir st k hk)]
    exact ih h.2 _

/-- A block with an unrecognized key parses to failure. -/
theorem processTexKeys_bad {dir : String} (ks : List TexKey)
    (h : texBlockClean ks = false) :
    ∀ st : TexParseState, (processTexKeys dir st ks).2 = false := by
  induction ks with
  | nil => simp [texBlockClean] at h
  | cons k ks ih =>
    intro st
    rw [texBlockClean_cons] at h
    cases hkk : k.isUnknownKey with
    | true => cases k <;> simp [TexKey.isUnknownKey] at hkk <;> rfl
    | false =>
      have hks : texBlockClean ks = false := by
        rw [hkk] at h
        simpa using h
      rw [processTexKeys_cons_ok ks (stepTexKey_ok dir st k hkk)]
      exact ih hks _

theorem deserializeTexture_snd {m : Material} {dir : String} {ks : List TexKey} :
    (m.deserializeTexture dir ks).2 = texBlockClean ks := by
  cases hc : texBlockClean ks with
  | true =>
    have := @processTexKeys_clean_ok dir ks hc
      (TexParseState.mk (m.textures.getD m.texture_count none) 0 (-1) false)
    unfold Material.deserializeTexture
    cases hp : processTexKeys dir
        (TexParseState.mk (m.textures.getD m.texture_count none) 0 (-1) false) ks with
    | mk st b =>
      rw [hp] at this
      subst this
      rfl
  | false =>
    have := @processTexKeys_bad dir ks hc
      (TexParseState.mk (m.textures.getD m.texture_count none) 0 (-1) false)
    unfold Material.deserializeTexture
    cases hp : processTexKeys dir
        (TexParseState.mk (m.textures.getD m.texture_count none) 0 (-1) false) ks with
    | mk st b =>
      rw [hp] at this
      subst this
      rfl

/-- Every non-`texture` entry processes successfully; a `texture` entry
succeeds exactly when its block is clean. -/
theorem loadEntry_snd (m : Material) (r : Renderer) (senv : String → Shader) (dir : String)
    (e : DocEntry) :
    (m.loadEntry r senv dir e).2 =
      (match e with
       | DocEntry.texture ks => texBlockClean ks
       | _ => true) := by
  cases e <;> simp [Material.loadEntry, deserializeTexture_snd]

theorem loadLoop_cons_ok {m : Material} {r : Renderer} {senv : String → Shader} {dir : String}
    {e : DocEntry} (es : List DocEntry) (h : (m.loadEntry r senv dir e).2 = true) :
    loadLoop r senv dir m (e :: es) = loadLoop r senv dir (m.loadEntry r senv dir e).1 es := by
  cases hst : m.loadEntry r senv dir e with
  | mk m1 b =>
    rw [hst] at h
    subst h
    simp [loadLoop, hst]

theorem loadLoop_cons_fail {m : Material} {r : Renderer} {senv : String → Shader} {dir : String}
    {e : DocEntry} (es : List DocEntry) (h : (m.loadEntry r senv dir e).2 = false) :
    loadLoop r senv dir m (e :: es) = ((m.loadEntry r senv dir e).1, false) := by
  cases hst : m.loadEntry r senv dir e with
  | mk m1 b =>
    rw [hst] at h
    subst h
    simp [loadLoop, hst]

theorem loadLoop_append {r : Renderer} {senv : String → Shader} {dir : String}
    (d1 d2 : List DocEntry) (m : Material) (h : (loadLoop r senv dir m d1).2 = true) :
    loadLoop r senv dir m (d1 ++ d2) =
      loadLoop r senv dir (loadLoop r senv dir m d1).1 d2 := by
  induction d1 generalizing m with
  | nil => rfl
  | cons e es ih =>
    cases hb : (m.loadEntry r senv dir e).2 with
    | true =>
      have h2 : (loadLoop r senv dir (m.loadEntry r senv dir e).1 es).2 = true := by
        rw [loadLoop_cons_ok es hb] at h
        exact h
      rw [List.cons_append, loadLoop_cons_ok (es ++ d2) hb, ih _ h2, loadLoop_cons_ok es hb]
    | false =>
      rw [loadLoop_cons_fail es hb] at h
      simp at h

theorem loadLoop_clean_ok {r : Renderer} {senv : String → Shader} {dir : String}
    (doc : List DocEntry) (h : docTexClean doc = true) :
    ∀ m : Material, (loadLoop r senv dir m doc).2 = true := by
  induction doc with
  | nil => intro m; rfl
  | cons e es ih =>
    intro m
    rw [docTexClean_cons, Bool.and_eq_true] at h
    have he : (m.loadEntry r senv dir e).2 = true := by
      rw [loadEntry_snd]
      exact h.1
    rw [loadLoop_cons_ok es he]
    exact ih h.2 _

theorem loadLoop_bad {r : Renderer} {senv : String → Shader} {dir : String}
    (doc : List DocEntry) (h : docTexClean doc = false) :
    ∀ m : Material, (loadLoop r senv dir m doc).2 = false := by
  induction doc with
  | nil => simp [docTexClean] at h
  | cons e es ih =>
    intro m
    cases hb : (m.loadEntry r senv dir e).2 with
    | false => rw [loadLoop_cons_fail es hb]
    | true =>
      have hes : docTexClean es = false := by
        rw [loadEntry_snd] at hb
        rw [docTexClean_cons, hb] at h
        simpa using h
      rw [loadLoop_cons_ok es hb]
      exact ih hes _

/-- `Material::load` in terms of the entry loop: the final state is the
loop's state, success requires the loop to finish and a shader to be set. -/
theorem load_result (m : Material) (r : Renderer) (senv : String → Shader) (dir : String)
    (doc : List DocEntry) :
    m.load r senv dir doc =
      ((loadLoop r senv dir m.loadInit doc).1,
       (loadLoop r senv dir m.loadInit doc).2 &&
         !(loadLoop r senv dir m.loadInit doc).1.shader.isNone) := by
  unfold Material.load
  cases hl : loadLoop r senv dir m.loadInit doc with
  | mk m4 b =>
    cases b
    · simp
    · by_cases hn : m4.shader.isNone = true <;> simp [hn]

/-- Which entries change the shader: only a `shader` entry, which installs
the cache's shader for its path. -/
theorem loadEntry_shader (m : Material) (r : Renderer) (senv : String → Shader) (dir : String)
    (e : DocEntry) :
    (m.loadEntry r senv dir e).1.shader =
      (match e with
       | DocEntry.shader p => some (senv p)
       | _ => m.shader) := by
  cases e with
  | shader p => simp [Material.loadEntry, setShaderRes_some_shader]
  | texture ks =>
    show (m.deserializeTexture dir ks).1.shader = m.shader
    unfold Material.deserializeTexture
    cases hp : processTexKeys dir
        (TexParseState.mk (m.textures.getD m.texture_count none) 0 (-1) false) ks with
    | mk st b => cases b <;> rfl
  | _ => rfl

/-- The loop never erases a shader: a material entering with a shader set
leaves with a shader set (possibly a different one). -/
theorem loadLoop_shader_isSome {r : Renderer} {senv : String → Shader} {dir : String}
    (doc : List DocEntry) :
    ∀ m : Material, m.shader.isSome = true →
      (loadLoop r senv dir m doc).1.shader.isSome = true := by
  induction doc with
  | nil => intro m h; exact h
  | cons e es ih =>
    intro m h
    have hstep : (m.loadEntry r senv dir e).1.shader.isSome = true := by
      rw [loadEntry_shader]
      cases e <;> simp [h]
    cases hb : (m.loadEntry r senv dir e).2 with
    | true => rw [loadLoop_cons_ok es hb]; exact ih _ hstep
    | false => rw [loadLoop_cons_fail es hb]; exact hstep

/-- A loop over a document with no `shader` entry leaves the shader
untouched. -/
theorem loadLoop_no_shader_entry {r : Renderer} {senv : String → Shader} {dir : String}
    (doc : List DocEntry) (h : docHasShaderEntry doc = false) :
    ∀ m : Material, (loadLoop r senv dir m doc).1.shader = m.shader := by
  induction doc with
  | nil => intro m; rfl
  | cons e es ih =>
    intro m
    rw [docHasShaderEntry_cons] at h
    have he : docHasShaderEntry es = false := by
      cases hes : docHasShaderEntry es
      · rfl
      · rw [hes] at h
        simp at h
    have hstep : (m.loadEntry r senv dir e).1.shader = m.shader := by
      rw [loadEntry_shader]
      cases e <;> simp_all
    cases hb : (m.loadEntry r senv dir e).2 with
    | true => rw [loadLoop_cons_ok es hb, ih he, hstep]
    | false => rw [loadLoop_cons_fail es hb]; exact hstep

/-! ## C3 — a document with no `shader` key (corrected) -/

/-- Counterexample to C3 as stated: an input document with no `shader` key
for which `Material::load` returns true, not false.  The fresh material
already holds the renderer's default shader (the constructor's
`setShader(nullptr)` fallback), so the post-parse `if (!m_shader)` check
does not fire. -/
theorem load_missing_shader_counterexample :
    ((Material.new sampleRenderer).load sampleRenderer sampleSenv "mats/" []).2 = true := by
  decide

/-- C3 amended: for a document with no `shader` key (and no aborting
`texture` block), `Material::load` on a fresh material returns true and
leaves the renderer's default shader installed; the missing-shader failure
path can only fire if the shader pointer is null after the parse, which the
constructor's default-shader fallback prevents. -/
theorem load_missing_shader_amended (r : Renderer) (senv : String → Shader) (dir : String)
    (doc : List DocEntry) (hns : docHasShaderEntry doc = false)
    (hclean : docTexClean doc = true) :
    ((Material.new r).load r senv dir doc).2 = true ∧
      ((Material.new r).load r senv dir doc).1.shader = some r.default_shader := by
  have hshader : (loadLoop r senv dir (Material.new r).loadInit doc).1.shader =
      some r.default_shader := by
    rw [loadLoop_no_shader_entry doc hns]
    rfl
  have hok : (loadLoop r senv dir (Material.new r).loadInit doc).2 = true :=
    loadLoop_clean_ok doc hclean _
  rw [load_result]
  refine ⟨?_, hshader⟩
  simp [hok, hshader]

/-- Witness for the amended C3 at a concrete shaderless document. -/
theorem load_missing_shader_amended_witness :
    ((Material.new sampleRenderer).load sampleRenderer sampleSenv "mats/"
        [DocEntry.shininess 2, DocEntry.texture [TexKey.source "t.dds"]]).2 = true ∧
      ((Material.new sampleRenderer).load sampleRenderer sampleSenv "mats/"
        [DocEntry.shininess 2, DocEntry.texture [TexKey.source "t.dds"]]).1.shader =
        some sampleRenderer.default_shader :=
  load_missing_shader_amended sampleRenderer sampleSenv "mats/"
    [DocEntry.shininess 2, DocEntry.texture [TexKey.source "t.dds"]] (by decide) (by decide)

/-! ## C4 — unknown keys: fatal inside texture blocks, warning at top level -/

/-- C4: a document containing a `texture` block with an unrecognized key
makes `Material::load` return false — so the resource transitions to
FAILURE — while documents whose `texture` blocks are all clean load
successfully whatever other unknown (top-level, warn-only) keys they carry. -/
theorem load_texture_unknown_key (r : Renderer) (senv : String → Shader) (dir : String)
    (doc : List DocEntry) :
    (docTexClean doc = false →
      ((Material.new r).load r senv dir doc).2 = false ∧
        resourceStateAfterLoad ((Material.new r).load r senv dir doc).2 = ResState.FAILURE) ∧
    (docTexClean doc = true → ((Material.new r).load r senv dir doc).2 = true) := by
  constructor
  · intro h
    have hbad : (loadLoop r senv dir (Material.new r).loadInit doc).2 = false :=
      loadLoop_bad doc h _
    rw [load_result]
    simp [hbad, resourceStateAfterLoad]
  · intro h
    have hok : (loadLoop r senv dir (Material.new r).loadInit doc).2 = true :=
      loadLoop_clean_ok doc h _
    have hsome : (loadLoop r senv dir (Material.new r).loadInit doc).1.shader.isSome = true :=
      loadLoop_shader_isSome doc _ (by rfl)
    rw [load_result]
    simp only [hok, Bool.true_and]
    cases hs : (loadLoop r senv dir (Material.new r).loadInit doc).1.shader with
    | none => rw [hs] at hsome; simp at hsome
    | some s => simp

/-- Witness for C4: a bad texture block aborts; a top-level unknown key
only warns. -/
theorem load_texture_unknown_key_witness :
    (((Material.new sampleRenderer).load sampleRenderer sampleSenv "mats/"
        [DocEntry.texture [TexKey.atlas_size 4, TexKey.unknown "foo"]]).2 = false ∧
      resourceStateAfterLoad
        (((Material.new sampleRenderer).load sampleRenderer sampleSenv "mats/"
          [DocEntry.texture [TexKey.atlas_size 4, TexKey.unknown "foo"]]).2) =
        ResState.FAILURE) ∧
    ((Material.new sampleRenderer).load sampleRenderer sampleSenv "mats/"
        [DocEntry.unknown "custom_field", DocEntry.shader "shaders/test.shd"]).2 = true :=
  ⟨(load_texture_unknown_key sampleRenderer sampleSenv "mats/"
      [DocEntry.texture [TexKey.atlas_size 4, TexKey.unknown "foo"]]).1 (by decide),
   (load_texture_unknown_key sampleRenderer sampleSenv "mats/"
      [DocEntry.unknown "custom_field", DocEntry.shader "shaders/test.shd"]).2 (by decide)⟩

/-! ## C5 — the alpha-reference byte of the render state (corrected) -/

theorem testBit_255 (j : Nat) : (255 : Nat).testBit j = decide (j < 8) := by
  have h : (255 : Nat) = 2 ^ 8 - 1 := by norm_num
  rw [h, Nat.testBit_two_pow_sub_one]

/-- Reading the alpha-reference field back out of
`BGFX_STATE_ALPHA_REF(v) | base` when the base states do not overlap the
field. -/
theorem alphaRefField_or (v b : Nat) (hv : v < 256)
    (hb : b &&& BGFX_STATE_ALPHA_REF_MASK = 0) :
    alphaRefField (bgfxStateAlphaRef v ||| b) = v := by
  have hbbit : ∀ j : Nat, j < 8 → b.testBit (40 + j) = false := by
    intro j hj
    have := congrArg (fun x => x.testBit (40 + j)) hb
    simp only [Nat.testBit_and, Nat.zero_testBit] at this
    rw [Bool.and_eq_false_iff] at this
    rcases this with h | h
    · exact h
    · exfalso
      rw [BGFX_STATE_ALPHA_REF_MASK, BGFX_STATE_ALPHA_REF_SHIFT] at h
      rw [Nat.testBit_shiftLeft] at h
      simp only [Nat.add_sub_cancel_left] at h
      rw [testBit_255] at h
      simp [hj] at h
  apply Nat.eq_of_testBit_eq
  intro j
  rw [alphaRefField, BGFX_STATE_ALPHA_REF_SHIFT, Nat.testBit_and, Nat.testBit_shiftRight,
    Nat.testBit_or, testBit_255]
  rw [bgfxStateAlphaRef, BGFX_STATE_ALPHA_REF_MASK, BGFX_STATE_ALPHA_REF_SHIFT]
  rw [Nat.testBit_and, Nat.testBit_shiftLeft, Nat.testBit_shiftLeft, testBit_255]
  simp only [Nat.add_sub_cancel_left, Nat.le_add_right, decide_True, Bool.true_and]
  by_cases hj : j < 8
  · rw [hbbit j hj]
    simp [hj]
  · have h8 : (256 : Nat) = 2 ^ 8 := by norm_num
    have hvb : v.testBit j = false :=
      Nat.testBit_lt_two_pow (Nat.lt_of_lt_of_le (h8 ▸ hv)
        (Nat.pow_le_pow_right (by norm_num) (Nat.le_of_not_lt hj)))
    simp [hj, hvb]

/-- Counterexample to C5 as stated: loading the scenario document with
`alpha_ref: 0.5` and reconciling readiness leaves the alpha-reference byte
at 127 = trunc(0.5*255), not round(0.5*255) = 128 — the C++ cast
`uint8(m_alpha_ref * 255.0f)` truncates. -/
theorem alpha_ref_half_counterexample :
    alphaRefField (((Material.new sampleRenderer).load sampleRenderer sampleSenv "mats/"
        c5doc).1.onBeforeReady.render_states) = 127 ∧ (127 : Nat) ≠ 128 := by
  constructor
  · decide
  · decide

/-- C5 amended: after loading a document with `alpha_ref: 0.5` and running
the readiness reconciliation, the 8-bit alpha-reference sub-field of the
render states equals the C++ truncation `uint8(0.5*255)` = 127 (not 128),
for any shader whose base render states stay clear of the field. -/
theorem alpha_ref_half_amended (r : Renderer) (senv : String → Shader) (dir : String)
    (hz : (senv "/shaders/default.shd").render_states &&& BGFX_STATE_ALPHA_REF_MASK = 0) :
    alphaRefField
      (((Material.new r).load r senv dir c5doc).1.onBeforeReady.render_states) = 127 := by
  set s := senv "/shaders/default.shd" with hsdef
  set mI := (Material.new r).loadInit with hmI
  have hclean : docTexClean c5doc = true := by decide
  have e1ok : (mI.loadEntry r senv dir (DocEntry.shader "/shaders/default.shd")).2 = true := by
    rw [loadEntry_snd]
  have hl1 : loadLoop r senv dir mI c5doc =
      loadLoop r senv dir (mI.setShaderRes r (some s))
        [DocEntry.texture [TexKey.source "t.dds", TexKey.srgb true],
         DocEntry.alpha_ref ⟨1, 2⟩] := by
    exact loadLoop_cons_ok _ e1ok
  set m1 := mI.setShaderRes r (some s) with hm1
  have e2ok : (m1.loadEntry r senv dir
      (DocEntry.texture [TexKey.source "t.dds", TexKey.srgb true])).2 = true := by
    rw [loadEntry_snd]
    decide
  have hl2 : loadLoop r senv dir m1
      [DocEntry.texture [TexKey.source "t.dds", TexKey.srgb true],
       DocEntry.alpha_ref ⟨1, 2⟩] =
      loadLoop r senv dir
        ((m1.deserializeTexture dir [TexKey.source "t.dds", TexKey.srgb true]).1)
        [DocEntry.alpha_ref ⟨1, 2⟩] :=
    loadLoop_cons_ok _ e2ok
  set m2 := (m1.deserializeTexture dir [TexKey.source "t.dds", TexKey.srgb true]).1 with hm2
  have hl3 : loadLoop r senv dir m2 [DocEntry.alpha_ref ⟨1, 2⟩] =
      ({ m2 with alpha_ref := ⟨1, 2⟩ }, true) := by
    rfl
  have hfinal : loadLoop r senv dir mI c5doc = ({ m2 with alpha_ref := ⟨1, 2⟩ }, true) := by
    rw [hl1, hl2, hl3]
  have hm2shader : m2.shader = some s := by
    rw [hm2]
    unfold Material.deserializeTexture
    cases hp : processTexKeys dir
        (TexParseState.mk (m1.textures.getD m1.texture_count none) 0 (-1) false)
        [TexKey.source "t.dds", TexKey.srgb true] with
    | mk st b =>
      cases b <;> simpa using setShaderRes_some_shader mI r s
  have hload : ((Material.new r).load r senv dir c5doc).1 =
      { m2 with alpha_ref := ⟨1, 2⟩ } := by
    rw [load_result, ← hmI, hfinal]
  rw [hload]
  have hsh : ({ m2 with alpha_ref := (⟨1, 2⟩ : F) } : Material).shader = some s := hm2shader
  rw [onBeforeReady_render_states_of_shader hsh]
  have hf : floatToUint8 (⟨1, 2⟩ : F) = 127 := by decide
  show alphaRefField (bgfxStateAlphaRef (floatToUint8 (⟨1, 2⟩ : F)) ||| s.render_states) = 127
  rw [hf]
  exact alphaRefField_or 127 s.render_states (by norm_num) hz

/-- Witness for the amended C5 at the concrete sample renderer. -/
theorem alpha_ref_half_amended_witness :
    alphaRefField (((Material.new sampleRenderer).load sampleRenderer sampleSenv "mats/"
        c5doc).1.onBeforeReady.render_states) = 127 :=
  alpha_ref_half_amended sampleRenderer sampleSenv "mats/" (by decide)

/-! ## C8 — setTexture propagates the old atlas size before the unload -/

/-- C8: when a texture was previously bound at slot `i` and the new texture
is non-null, `setTexture` writes the old texture's atlas size into the new
texture (the event precedes the removal of the old texture's dependency and
its unload, and the stored slot carries the propagated size); when either
side is absent, no atlas size is propagated at all. -/
theorem setTexture_atlas_propagation (m : Material) (i : Nat) (t? : Option Texture) :
    (∀ o tex, (if i < m.texture_count then m.textures.getD i none else none) = some o →
      t? = some tex →
      (∃ tail, (m.setTexture i t?).2 =
          MatEvent.addDependency tex.path :: MatEvent.setAtlasSize tex.path o.atlas_size ::
          MatEvent.removeDependency o.path :: MatEvent.unloadRes o.path :: tail) ∧
        (i < m.textures.length →
          (m.setTexture i t?).1.textures.getD i none =
            some { tex with atlas_size := o.atlas_size })) ∧
    (((if i < m.texture_count then m.textures.getD i none else none) = none ∨ t? = none) →
      ∀ p sz, MatEvent.setAtlasSize p sz ∉ (m.setTexture i t?).2) := by
  constructor
  · intro o tex hold htex
    subst htex
    constructor
    · unfold Material.setTexture
      rw [hold]
      by_cases hr : m.ready <;> cases hs : m.shader <;> simp [hr, hs]
    · intro hlen
      unfold Material.setTexture
      rw [hold]
      by_cases hr : m.ready <;> cases hs : m.shader <;> simp [hr, hs] <;>
        (rw [← List.getD_eq_getElem?_getD]; exact getD_set_eq _ _ _ _ hlen)
  · intro hcase p sz
    rcases hcase with hold | hnone
    · unfold Material.setTexture
      rw [hold]
      cases t? <;> by_cases hr : m.ready <;> cases hs : m.shader <;> simp [hr, hs]
    · subst hnone
      unfold Material.setTexture
      cases hold : (if i < m.texture_count then m.textures.getD i none else none) <;>
        by_cases hr : m.ready <;> cases hs : m.shader <;> simp [hr, hs]

/-- Witness for C8: a concrete replacement of the occupied slot 0 and a
concrete insertion into an empty slot. -/
theorem setTexture_atlas_propagation_witness :
    ((∃ tail, (sampleMaterial.setTexture 0
        (some { path := "textures/u.dds", flags := 0, atlas_size := 4, data_refs := 0,
                has_data := false })).2 =
        MatEvent.addDependency "textures/u.dds" ::
        MatEvent.setAtlasSize "textures/u.dds" sampleTexture.atlas_size ::
        MatEvent.removeDependency sampleTexture.path ::
        MatEvent.unloadRes sampleTexture.path :: tail) ∧
      (0 < sampleMaterial.textures.length →
        (sampleMaterial.setTexture 0
          (some { path := "textures/u.dds", flags := 0, atlas_size := 4, data_refs := 0,
                  has_data := false })).1.textures.getD 0 none =
          some { path := "textures/u.dds", flags := 0,
                 atlas_size := sampleTexture.atlas_size, data_refs := 0, has_data := false })) ∧
    (∀ p sz, MatEvent.setAtlasSize p sz ∉ (sampleMaterial.setTexture 1 none).2) :=
  ⟨(setTexture_atlas_propagation sampleMaterial 0
      (some { path := "textures/u.dds", flags := 0, atlas_size := 4, data_refs := 0,
              has_data := false })).1
    sampleTexture _ (by decide) rfl,
   (setTexture_atlas_propagation sampleMaterial 1 none).2 (Or.inr rfl)⟩

/-! ## C7 — texture blocks fill slots in declaration order -/

theorem getD_of_len_le {α : Type} (l : List α) (j : Nat) (d : α) (h : l.length ≤ j) :
    l.getD j d = d := by
  induction l generalizing j with
  | nil => rfl
  | cons hd tl ih =>
    cases j with
    | zero => simp at h
    | succ j2 => simpa using ih j2 (by simpa using h)

theorem docTextureBlocks_cons (e : DocEntry) (es : List DocEntry) :
    docTextureBlocks (e :: es) =
      (match e with
       | DocEntry.texture ks => ks :: docTextureBlocks es
       | _ => docTextureBlocks es) := by
  cases e <;> simp [docTextureBlocks]

theorem loadEntry_textures (m : Material) (r : Renderer) (senv : String → Shader)
    (dir : String) (e : DocEntry) :
    (m.loadEntry r senv dir e).1.textures =
      (match e with
       | DocEntry.texture ks => (m.deserializeTexture dir ks).1.textures
       | _ => m.textures) := by
  cases e with
  | texture ks => rfl
  | shader p => simp [Material.loadEntry, setShaderRes_some_textures]
  | _ => rfl

theorem loadEntry_texture_count (m : Material) (r : Renderer) (senv : String → Shader)
    (dir : String) (e : DocEntry) :
    (m.loadEntry r senv dir e).1.texture_count =
      (match e with
       | DocEntry.texture ks => (m.deserializeTexture dir ks).1.texture_count
       | _ => m.texture_count) := by
  cases e with
  | texture ks => rfl
  | shader p => simp [Material.loadEntry, setShaderRes_some_texture_count]
  | _ => rfl

/-- A cleanly parsed `texture` block writes the block's texture into the
slot at the current count and advances the count, provided the slot cell
was still empty. -/
theorem deserializeTexture_clean_step {m : Material} {dir : String} {ks : List TexKey}
    (hc : texBlockClean ks = true) (hcell : m.textures.getD m.texture_count none = none) :
    m.deserializeTexture dir ks =
      ({ m with textures := m.textures.set m.texture_count (textureFromBlock dir ks),
                texture_count := m.texture_count + 1 }, true) := by
  unfold Material.deserializeTexture
  rw [hcell]
  cases hp : processTexKeys dir (TexParseState.mk none 0 (-1) false) ks with
  | mk st b =>
    have hb : b = true := by
      have := @processTexKeys_clean_ok dir ks hc (TexParseState.mk none 0 (-1) false)
      rw [hp] at this
      exact this
    subst hb
    have hf : textureFromBlock dir ks = finalizeTexCell st := by
      unfold textureFromBlock
      rw [hp]
    rw [hf]

theorem texBlockNoSource_cons (k : TexKey) (ks : List TexKey) :
    texBlockNoSource (k :: ks) =
      ((match k with | TexKey.source p => p == "" | _ => true) && texBlockNoSource ks) := by
  simp [texBlockNoSource, List.all_cons]

theorem processTexKeys_cons_fail {dir : String} {st : TexParseState} {k : TexKey}
    (ks : List TexKey) (h : (stepTexKey dir st k).2 = false) :
    processTexKeys dir st (k :: ks) = ((stepTexKey dir st k).1, false) := by
  cases hst : stepTexKey dir st k with
  | mk st1 b =>
    rw [hst] at h
    subst h
    simp [processTexKeys, hst]

/-- A `texture`-block key with no nonempty `source` payload leaves the slot
cell untouched. -/
theorem stepTexKey_cur_preserved {dir : String} {st : TexParseState} (k : TexKey)
    (h : (match k with | TexKey.source p => p == "" | _ => true) = true) :
    (stepTexKey dir st k).1.cur = st.cur := by
  cases k with
  | source p =>
    have hp : p = "" := by simpa using h
    subst hp
    rfl
  | min_filter s => simp [stepTexKey]
  | mag_filter s => simp [stepTexKey]
  | _ => rfl

/-- A block that never binds a texture leaves its slot recorded as absent. -/
theorem textureFromBlock_noSource {dir : String} {ks : List TexKey}
    (h : texBlockNoSource ks = true) : textureFromBlock dir ks = none := by
  have hcur : ∀ (ks2 : List TexKey), texBlockNoSource ks2 = true → ∀ st : TexParseState,
      (processTexKeys dir st ks2).1.cur = st.cur := by
    intro ks2
    induction ks2 with
    | nil => intro _ st; rfl
    | cons k ks2 ih =>
      intro h2 st
      rw [texBlockNoSource_cons, Bool.and_eq_true] at h2
      cases hb : (stepTexKey dir st k).2 with
      | false =>
        rw [processTexKeys_cons_fail ks2 hb]
        exact stepTexKey_cur_preserved k h2.1
      | true =>
        rw [processTexKeys_cons_ok ks2 hb, ih h2.2 _]
        exact stepTexKey_cur_preserved k h2.1
  unfold textureFromBlock finalizeTexCell
  rw [hcur ks h (TexParseState.mk none 0 (-1) false)]

/-- Non-`texture` entries leave the texture slots, the slot count and the
load success untouched. -/
theorem loadEntry_nontex_stats (m : Material) (r : Renderer) (senv : String → Shader)
    (dir : String) (e : DocEntry) (h : e.isTextureEntry = false) :
    (m.loadEntry r senv dir e).1.textures = m.textures ∧
    (m.loadEntry r senv dir e).1.texture_count = m.texture_count ∧
    (m.loadEntry r senv dir e).2 = true := by
  cases e <;>
    simp_all [DocEntry.isTextureEntry, Material.loadEntry, Material.deserializeDefines,
      Material.deserializeUniforms, setShaderRes_some_textures,
      setShaderRes_some_texture_count]

theorem docTextureBlocks_cons_nontex {e : DocEntry} (es : List DocEntry)
    (h : e.isTextureEntry = false) :
    docTextureBlocks (e :: es) = docTextureBlocks es := by
  cases e <;> simp_all [DocEntry.isTextureEntry, docTextureBlocks]

/-- The slot bookkeeping of the entry loop: blocks fill consecutive slots
in document order starting at the current count, each block consuming one
slot, previously filled and still-empty slots staying as they were. -/
theorem loadLoop_texture_slots {r : Renderer} {senv : String → Shader} {dir : String}
    (doc : List DocEntry) :
    ∀ m : Material, docTexClean doc = true →
      m.texture_count + (docTextureBlocks doc).length ≤ m.textures.length →
      (∀ j, m.texture_count ≤ j → m.textures.getD j none = none) →
      (loadLoop r senv dir m doc).1.texture_count =
          m.texture_count + (docTextureBlocks doc).length ∧
      (loadLoop r senv dir m doc).1.textures.length = m.textures.length ∧
      (∀ j, j < m.texture_count →
        (loadLoop r senv dir m doc).1.textures.getD j none = m.textures.getD j none) ∧
      (∀ k, k < (docTextureBlocks doc).length →
        (loadLoop r senv dir m doc).1.textures.getD (m.texture_count + k) none =
          textureFromBlock dir ((docTextureBlocks doc).getD k [])) ∧
      (∀ j, m.texture_count + (docTextureBlocks doc).length ≤ j →
        (loadLoop r senv dir m doc).1.textures.getD j none = none) := by
  induction doc with
  | nil =>
    intro m hclean hbudget hcells
    refine ⟨?_, rfl, fun j hj => rfl, ?_, ?_⟩
    · show m.texture_count = m.texture_count + (docTextureBlocks []).length
      simp [docTextureBlocks]
    · intro k hk
      simp [docTextureBlocks] at hk
    · intro j hj
      exact hcells j (by simpa [docTextureBlocks] using hj)
  | cons e es ih =>
    intro m hclean hbudget hcells
    have hcleanT := hclean
    rw [docTexClean_cons, Bool.and_eq_true] at hcleanT
    cases hT : e.isTextureEntry with
    | true =>
      obtain ⟨ks, rfl⟩ : ∃ ks, e = DocEntry.texture ks := by
        cases e <;> simp [DocEntry.isTextureEntry] at hT <;> exact ⟨_, rfl⟩
      have hksclean : texBlockClean ks = true := by
        rw [docTexClean_cons, Bool.and_eq_true] at hclean
        exact hclean.1
      have hstep := @deserializeTexture_clean_step m dir ks hksclean
        (hcells m.texture_count (Nat.le_refl _))
      have hsnd : (m.loadEntry r senv dir (DocEntry.texture ks)).2 = true := by
        show (m.deserializeTexture dir ks).2 = true
        rw [hstep]
      rw [loadLoop_cons_ok es hsnd]
      have hm1 : (m.loadEntry r senv dir (DocEntry.texture ks)).1 =
          { m with textures := m.textures.set m.texture_count (textureFromBlock dir ks),
                   texture_count := m.texture_count + 1 } := by
        show (m.deserializeTexture dir ks).1 = _
        rw [hstep]
      rw [hm1]
      have hblocks : docTextureBlocks (DocEntry.texture ks :: es) =
          ks :: docTextureBlocks es := by
        rw [docTextureBlocks_cons]
      rw [hblocks] at hbudget ⊢
      simp only [List.length_cons] at hbudget ⊢
      have hcnt_lt : m.texture_count < m.textures.length := by omega
      have hbudget1 : m.texture_count + 1 + (docTextureBlocks es).length ≤
          (m.textures.set m.texture_count (textureFromBlock dir ks)).length := by
        simp only [List.length_set]
        omega
      have hcells1 : ∀ j, m.texture_count + 1 ≤ j →
          (m.textures.set m.texture_count (textureFromBlock dir ks)).getD j none = none := by
        intro j hj
        rw [getD_set_ne _ _ _ _ _ (by omega)]
        exact hcells j (by omega)
      obtain ⟨c1, c2, c3, c4, c5⟩ := ih
        ({ m with textures := m.textures.set m.texture_count (textureFromBlock dir ks),
                  texture_count := m.texture_count + 1 }) hcleanT.2 hbudget1 hcells1
      have hpc : ({ m with textures := m.textures.set m.texture_count (textureFromBlock dir ks),
                            texture_count := m.texture_count + 1 } : Material).texture_count =
          m.texture_count + 1 := rfl
      have hpt : ({ m with textures := m.textures.set m.texture_count (textureFromBlock dir ks),
                            texture_count := m.texture_count + 1 } : Material).textures =
          m.textures.set m.texture_count (textureFromBlock dir ks) := rfl
      simp only [hpc, hpt] at c1 c2 c3 c4 c5
      refine ⟨by rw [c1]; omega, by rw [c2]; simp, ?_, ?_, ?_⟩
      · intro j hj
        rw [c3 j (by omega)]
        exact getD_set_ne _ _ _ _ _ (by omega)
      · intro k hk
        cases k with
        | zero =>
          simp only [Nat.add_zero]
          rw [c3 m.texture_count (by omega)]
          show (m.textures.set m.texture_count (textureFromBlock dir ks)).getD
              m.texture_count none = textureFromBlock dir ((ks :: docTextureBlocks es).getD 0 [])
          rw [getD_set_eq m.textures m.texture_count (textureFromBlock dir ks) none hcnt_lt]
          rfl
        | succ k2 =>
          have harith : m.texture_count + (k2 + 1) = (m.texture_count + 1) + k2 := by omega
          rw [harith, c4 k2 (by omega)]
          rfl
      · intro j hj
        exact c5 j (by omega)
    | false =>
      obtain ⟨ht, hc, hs2⟩ := loadEntry_nontex_stats m r senv dir e hT
      have hblocks : docTextureBlocks (e :: es) = docTextureBlocks es :=
        docTextureBlocks_cons_nontex es hT
      rw [hblocks] at hbudget
      have hb1 : (m.loadEntry r senv dir e).1.texture_count +
          (docTextureBlocks es).length ≤ (m.loadEntry r senv dir e).1.textures.length := by
        rw [hc, ht]
        exact hbudget
      have hcells1 : ∀ j, (m.loadEntry r senv dir e).1.texture_count ≤ j →
          (m.loadEntry r senv dir e).1.textures.getD j none = none := by
        intro j hj
        rw [ht]
        exact hcells j (by rw [hc] at hj; exact hj)
      obtain ⟨c1, c2, c3, c4, c5⟩ := ih (m.loadEntry r senv dir e).1 hcleanT.2 hb1 hcells1
      rw [hc] at c1 c3 c4 c5
      rw [ht] at c2 c3
      rw [loadLoop_cons_ok es hs2, hblocks]
      exact ⟨c1, c2, c3, c4, c5⟩

theorem getD_replicate {α : Type} (a : α) (n j : Nat) :
    (List.replicate n a).getD j a = a := by
  induction n generalizing j with
  | zero => rfl
  | succ n2 ih =>
    cases j with
    | zero => rfl
    | succ j2 => simpa using ih j2

/-- C7: during `Material::load` on a fresh material, texture slots are
assigned in the order the `texture` blocks appear in the document starting
at slot 0, the k-th block fully determining slot k; a block with an empty
(or missing) `source` still consumes its slot index, recorded with no
texture bound. -/
theorem load_texture_slot_order (r : Renderer) (senv : String → Shader) (dir : String)
    (doc : List DocEntry) (hclean : docTexClean doc = true)
    (hn : (docTextureBlocks doc).length ≤ MAX_TEXTURE_COUNT) :
    ((Material.new r).load r senv dir doc).1.texture_count = (docTextureBlocks doc).length ∧
    (∀ k, k < (docTextureBlocks doc).length →
      ((Material.new r).load r senv dir doc).1.textures.getD k none =
        textureFromBlock dir ((docTextureBlocks doc).getD k [])) ∧
    (∀ k, k < (docTextureBlocks doc).length →
      texBlockNoSource ((docTextureBlocks doc).getD k []) = true →
      ((Material.new r).load r senv dir doc).1.textures.getD k none = none) := by
  have hInit_count : (Material.new r).loadInit.texture_count = 0 := rfl
  have hInit_textures : (Material.new r).loadInit.textures =
      List.replicate MAX_TEXTURE_COUNT none := rfl
  have hbudget : (Material.new r).loadInit.texture_count + (docTextureBlocks doc).length ≤
      (Material.new r).loadInit.textures.length := by
    rw [hInit_count, hInit_textures]
    simpa [MAX_TEXTURE_COUNT] using hn
  have hcells : ∀ j, (Material.new r).loadInit.texture_count ≤ j →
      (Material.new r).loadInit.textures.getD j none = none := by
    intro j _
    rw [hInit_textures]
    exact getD_replicate none MAX_TEXTURE_COUNT j
  obtain ⟨c1, c2, c3, c4, c5⟩ :=
    loadLoop_texture_slots doc (Material.new r).loadInit hclean hbudget hcells
  rw [hInit_count] at c1 c4
  simp only [Nat.zero_add] at c1 c4
  rw [load_result]
  exact ⟨c1, c4, fun k hk hns => by rw [c4 k hk]; exact textureFromBlock_noSource hns⟩

/-- Witness for C7: a shader entry, then an empty-source block that
consumes slot 0, then a real texture landing at slot 1. -/
theorem load_texture_slot_order_witness :
    (((Material.new sampleRenderer).load sampleRenderer sampleSenv "mats/"
        [DocEntry.shader "shaders/test.shd", DocEntry.texture [TexKey.source ""],
         DocEntry.texture [TexKey.source "a.dds"]]).1.texture_count =
      (docTextureBlocks
        [DocEntry.shader "shaders/test.shd", DocEntry.texture [TexKey.source ""],
         DocEntry.texture [TexKey.source "a.dds"]]).length) ∧
    (∀ k, k < (docTextureBlocks
        [DocEntry.shader "shaders/test.shd", DocEntry.texture [TexKey.source ""],
         DocEntry.texture [TexKey.source "a.dds"]]).length →
      ((Material.new sampleRenderer).load sampleRenderer sampleSenv "mats/"
        [DocEntry.shader "shaders/test.shd", DocEntry.texture [TexKey.source ""],
         DocEntry.texture [TexKey.source "a.dds"]]).1.textures.getD k none =
        textureFromBlock "mats/" ((docTextureBlocks
          [DocEntry.shader "shaders/test.shd", DocEntry.texture [TexKey.source ""],
           DocEntry.texture [TexKey.source "a.dds"]]).getD k [])) ∧
    (∀ k, k < (docTextureBlocks
        [DocEntry.shader "shaders/test.shd", DocEntry.texture [TexKey.source ""],
         DocEntry.texture [TexKey.source "a.dds"]]).length →
      texBlockNoSource ((docTextureBlocks
        [DocEntry.shader "shaders/test.shd", DocEntry.texture [TexKey.source ""],
         DocEntry.texture [TexKey.source "a.dds"]]).getD k []) = true →
      ((Material.new sampleRenderer).load sampleRenderer sampleSenv "mats/"
        [DocEntry.shader "shaders/test.shd", DocEntry.texture [TexKey.source ""],
         DocEntry.texture [TexKey.source "a.dds"]]).1.textures.getD k none = none) :=
  load_texture_slot_order sampleRenderer sampleSenv "mats/"
    [DocEntry.shader "shaders/test.shd", DocEntry.texture [TexKey.source ""],
     DocEntry.texture [TexKey.source "a.dds"]] (by decide) (by decide)

/-! ## C2 machinery, part 1: the defines round trip -/

theorem filterMap_if_eq_map_filter {β : Type} (l : List Nat) (p : Nat → Bool) (f : Nat → β) :
    (l.filterMap fun i => if p i then some (f i) else none) = (l.filter p).map f := by
  induction l with
  | nil => rfl
  | cons hd tl ih =>
    by_cases hp : p hd <;> simp [List.filterMap_cons, List.filter_cons, hp, ih]

theorem getD_mem {α : Type} (l : List α) (i : Nat) (d : α) (h : i < l.length) :
    l.getD i d ∈ l := by
  induction l generalizing i with
  | nil => simp at h
  | cons hd tl ih =>
    cases i with
    | zero => simp
    | succ j =>
      have hmem := ih j (by simpa using h)
      rw [List.getD_eq_getElem?_getD] at hmem
      simp [hmem]

theorem nodup_indexOf_getD (l : List String) (hnd : l.Nodup) (i : Nat) (h : i < l.length)
    (d : String) : l.indexOf (l.getD i d) = i := by
  induction l generalizing i with
  | nil => simp at h
  | cons a tl ih =>
    cases i with
    | zero =>
      show (a :: tl).indexOf a = 0
      simp [List.indexOf_cons_self]
    | succ j =>
      have hj : j < tl.length := by simpa using h
      have hmem : tl.getD j d ∈ tl := getD_mem tl j d hj
      have hne : tl.getD j d ≠ a := by
        intro he
        rw [List.nodup_cons] at hnd
        exact hnd.1 (he ▸ hmem)
      have hshift : (a :: tl).getD (j + 1) d = tl.getD j d := rfl
      rw [List.nodup_cons] at hnd
      rw [hshift]
      have hix := ih hnd.2 j hj
      rw [List.getD_eq_getElem?_getD] at hne hix
      simp [List.indexOf_cons, Ne.symm hne, hix]

theorem testBit_foldl_setMaskBit (l : List Nat) :
    ∀ acc : Nat, acc < U32 → (∀ i ∈ l, i < 32) → ∀ j : Nat,
      (l.foldl setMaskBit acc).testBit j = (acc.testBit j || decide (j ∈ l)) := by
  induction l with
  | nil => intro acc _ _ j; simp
  | cons i tl ih =>
    intro acc hacc hlt j
    have hstep := ih (setMaskBit acc i) (setMaskBit_lt acc i)
      (fun x hx => hlt x (List.mem_cons_of_mem i hx)) j
    show (tl.foldl setMaskBit (setMaskBit acc i)).testBit j = _
    rw [hstep, testBit_setMaskBit]
    by_cases hj : j < 32
    · by_cases hij : i = j
      · simp [hj, hij, List.mem_cons]
      · by_cases hjt : j ∈ tl <;> simp [hj, hij, hjt, List.mem_cons, Ne.symm hij]
    · have hacc2 : acc.testBit j = false :=
        testBit_eq_false_of_lt_U32 hacc (Nat.le_of_not_lt hj)
      have hjcons : j ∉ (i :: tl) := by
        intro hmem
        exact hj (hlt j hmem)
      have hjt : j ∉ tl := fun hmem => hjcons (List.mem_cons_of_mem i hmem)
      simp [hj, hacc2, hjt, hjcons]

theorem foldl_setMaskBit_names (r : Renderer) (l : List Nat)
    (hres : ∀ i ∈ l, r.getShaderDefineIdx (r.getShaderDefine i) = i) :
    ∀ acc : Nat,
      ((l.map r.getShaderDefine).foldl (fun acc n => setMaskBit acc (r.getShaderDefineIdx n))
        acc) = l.foldl setMaskBit acc := by
  induction l with
  | nil => intro acc; rfl
  | cons i tl ih =>
    intro acc
    have hi : r.getShaderDefineIdx (r.getShaderDefine i) = i := hres i (List.mem_cons_self i tl)
    show (tl.map r.getShaderDefine).foldl _ (setMaskBit acc (r.getShaderDefineIdx
        (r.getShaderDefine i))) = tl.foldl setMaskBit (setMaskBit acc i)
    rw [hi]
    exact ih (fun x hx => hres x (List.mem_cons_of_mem i hx)) _

/-- The `defines` round trip: serializing the set bits of a 32-bit define
mask as names and folding them back through the renderer's name table
reproduces the mask, provided the table has no duplicate names and covers
every set bit. -/
theorem savedDefines_roundtrip (r : Renderer) (mask : Nat) (hmask : mask < U32)
    (hbits : ∀ i, i < 32 → mask.testBit i = true → i < r.shader_defines.length)
    (hnodup : r.shader_defines.Nodup) :
    (savedDefineNames r mask).foldl
      (fun acc n => setMaskBit acc (r.getShaderDefineIdx n)) 0 = mask := by
  have hnames : savedDefineNames r mask =
      ((List.range 32).filter (fun i => mask.testBit i)).map r.getShaderDefine :=
    filterMap_if_eq_map_filter _ _ _
  have hres : ∀ i ∈ (List.range 32).filter (fun i => mask.testBit i),
      r.getShaderDefineIdx (r.getShaderDefine i) = i := by
    intro i hi
    rw [List.mem_filter, List.mem_range] at hi
    have hlen : i < r.shader_defines.length := hbits i hi.1 hi.2
    show r.shader_defines.indexOf (r.shader_defines.getD i "") = i
    exact nodup_indexOf_getD r.shader_defines hnodup i hlen ""
  rw [hnames, foldl_setMaskBit_names r _ hres 0]
  apply Nat.eq_of_testBit_eq
  intro j
  rw [testBit_foldl_setMaskBit _ 0 (by simp [U32]) (by intro i hi; exact
    (List.mem_range.mp (List.mem_filter.mp hi).1))]
  simp only [Nat.zero_testBit, Bool.false_or, List.mem_filter, List.mem_range]
  by_cases hj : j < 32
  · by_cases hb : mask.testBit j = true <;> simp [hj, hb]
  · have : mask.testBit j = false := testBit_eq_false_of_lt_U32 hmask (Nat.le_of_not_lt hj)
    simp [hj, this]

/-! ## C2 machinery, part 2: the texture-block round trip -/

theorem nat_and_distrib_or (x a b : Nat) : (x &&& a) ||| (x &&& b) = x &&& (a ||| b) := by
  apply Nat.eq_of_testBit_eq
  intro j
  rw [Nat.testBit_or, Nat.testBit_and, Nat.testBit_and, Nat.testBit_and, Nat.testBit_or]
  cases x.testBit j <;> simp

theorem ite_and_two_pow (x k : Nat) : (if x &&& 2 ^ k ≠ 0 then 2 ^ k else 0) = x &&& 2 ^ k := by
  rw [Nat.and_two_pow]
  cases h : x.testBit k <;> simp [h, Nat.ne_of_gt (Nat.two_pow_pos k)]

theorem processTexKeys_flagbit {dir : String} (c : Prop) [Decidable c] (key : TexKey) (B : Nat)
    (hstep : ∀ st : TexParseState,
      stepTexKey dir st key = ({ st with flags := st.flags ||| B }, true))
    (ks : List TexKey) (st : TexParseState) :
    processTexKeys dir st ((if c then [key] else []) ++ ks) =
      processTexKeys dir { st with flags := st.flags ||| (if c then B else 0) } ks := by
  by_cases hc : c
  · simp only [hc, if_true, List.singleton_append]
    rw [processTexKeys_cons_ok ks (by rw [hstep st]), hstep st]
  · simp only [hc, if_false, List.nil_append]
    have hid : ({ st with flags := st.flags ||| 0 } : TexParseState) = st := by
      simp
    rw [hid]

theorem processTexKeys_atlas {dir : String} (c : Prop) [Decidable c] (v : Int)
    (ks : List TexKey) (st : TexParseState) :
    processTexKeys dir st ((if c then [TexKey.atlas_size v] else []) ++ ks) =
      processTexKeys dir { st with atlas := if c then v else st.atlas } ks := by
  by_cases hc : c
  · rw [if_pos hc, if_pos hc, List.singleton_append]
    rw [processTexKeys_cons_ok ks (by rfl)]
    rfl
  · rw [if_neg hc, if_neg hc, List.nil_append]

theorem processTexKeys_keepbit {dir : String} (c : Prop) [Decidable c]
    (ks : List TexKey) (st : TexParseState) :
    processTexKeys dir st ((if c then [TexKey.keep_data true] else []) ++ ks) =
      processTexKeys dir { st with keep := if c then true else st.keep } ks := by
  by_cases hc : c
  · rw [if_pos hc, if_pos hc, List.singleton_append]
    rw [processTexKeys_cons_ok ks (by rfl)]
    rfl
  · rw [if_neg hc, if_neg hc, List.nil_append]

/-- Loading the `source` written by `Material::save` (a `/` prepended to
the stored path) resolves back to the same texture path: the leading
separator marks the path absolute and normalization strips it again. -/
theorem loadTextureRes_save_path (dir p : String) :
    loadTextureRes (resolveTexturePath dir ("/" ++ p)) =
      { path := p, flags := 0, atlas_size := -1, data_refs := 0, has_data := false } := by
  have hd : ("/" ++ p).data = '/' :: p.data := by
    rw [String.data_append]
    rfl
  have hres : resolveTexturePath dir ("/" ++ p) = "/" ++ p := by
    unfold resolveTexturePath
    rw [hd]
    dsimp only
    rw [if_pos (Or.inl rfl)]
  rw [hres]
  unfold loadTextureRes normalizePath
  rw [hd]
  dsimp only
  rw [if_pos (Or.inl rfl)]

/-- An empty `texture` block written for an unoccupied slot loads back to
an unoccupied slot. -/
theorem textureFromBlock_save_none (dir : String) :
    textureFromBlock dir (saveTextureBlock none) = none := rfl

/-- The `texture` block written for an occupied slot loads back to a
texture with the same path and (for flags within the serialized set) the
same flags; the atlas size survives when positive and keep_data reloads
one data reference. -/
theorem textureFromBlock_save_some (dir : String) (t : Texture)
    (hf : t.flags &&& SAVED_TEXTURE_FLAGS = t.flags) :
    textureFromBlock dir (saveTextureBlock (some t)) =
      some { path := t.path, flags := t.flags,
             atlas_size := if t.atlas_size > 0 then t.atlas_size else -1,
             data_refs := if t.has_data then 1 else 0,
             has_data := false } := by
  have hne : ("/" ++ t.path) ≠ "" := by
    intro h
    have hdd := congrArg String.data h
    rw [String.data_append] at hdd
    simp at hdd
  have hsrc : ∀ st : TexParseState,
      stepTexKey dir st (TexKey.source ("/" ++ t.path)) =
        ({ st with cur := some { path := t.path, flags := 0, atlas_size := -1,
                                 data_refs := 0, has_data := false } }, true) := by
    intro st
    show (if ("/" ++ t.path) = "" then st else _, true) = _
    rw [if_neg hne, loadTextureRes_save_path]
  unfold textureFromBlock
  show finalizeTexCell (processTexKeys dir (TexParseState.mk none 0 (-1) false)
    (saveTextureBlock (some t))).1 = _
  rw [saveTextureBlock]
  simp only [List.append_assoc, List.singleton_append, List.cons_append]
  rw [processTexKeys_cons_ok _ (by rw [hsrc]), hsrc]
  dsimp only
  simp only [List.nil_append]
  rw [processTexKeys_atlas]
  rw [processTexKeys_flagbit _ (TexKey.srgb true) BGFX_TEXTURE_SRGB (fun st => rfl)]
  rw [processTexKeys_flagbit _ (TexKey.u_clamp true) BGFX_TEXTURE_U_CLAMP (fun st => rfl)]
  rw [processTexKeys_flagbit _ (TexKey.v_clamp true) BGFX_TEXTURE_V_CLAMP (fun st => rfl)]
  rw [processTexKeys_flagbit _ (TexKey.w_clamp true) BGFX_TEXTURE_W_CLAMP (fun st => rfl)]
  rw [processTexKeys_flagbit _ (TexKey.min_filter "point") BGFX_TEXTURE_MIN_POINT
    (fun st => rfl)]
  rw [processTexKeys_flagbit _ (TexKey.min_filter "anisotropic") BGFX_TEXTURE_MIN_ANISOTROPIC
    (fun st => rfl)]
  rw [processTexKeys_flagbit _ (TexKey.mag_filter "point") BGFX_TEXTURE_MAG_POINT
    (fun st => rfl)]
  rw [processTexKeys_flagbit _ (TexKey.mag_filter "anisotropic") BGFX_TEXTURE_MAG_ANISOTROPIC
    (fun st => rfl)]
  rw [← List.append_nil (if t.has_data then [TexKey.keep_data true] else [])]
  rw [processTexKeys_keepbit]
  simp only [processTexKeys]
  unfold finalizeTexCell
  dsimp only
  have hSRGB : BGFX_TEXTURE_SRGB = 2 ^ 21 := by norm_num [BGFX_TEXTURE_SRGB]
  have hU : BGFX_TEXTURE_U_CLAMP = 2 ^ 1 := by norm_num [BGFX_TEXTURE_U_CLAMP]
  have hV : BGFX_TEXTURE_V_CLAMP = 2 ^ 3 := by norm_num [BGFX_TEXTURE_V_CLAMP]
  have hW : BGFX_TEXTURE_W_CLAMP = 2 ^ 5 := by norm_num [BGFX_TEXTURE_W_CLAMP]
  have hMP : BGFX_TEXTURE_MIN_POINT = 2 ^ 6 := by norm_num [BGFX_TEXTURE_MIN_POINT]
  have hMA : BGFX_TEXTURE_MIN_ANISOTROPIC = 2 ^ 7 := by
    norm_num [BGFX_TEXTURE_MIN_ANISOTROPIC]
  have hGP : BGFX_TEXTURE_MAG_POINT = 2 ^ 8 := by norm_num [BGFX_TEXTURE_MAG_POINT]
  have hGA : BGFX_TEXTURE_MAG_ANISOTROPIC = 2 ^ 9 := by
    norm_num [BGFX_TEXTURE_MAG_ANISOTROPIC]
  simp only [hSRGB, hU, hV, hW, hMP, hMA, hGP, hGA, ite_and_two_pow, Nat.zero_or,
    nat_and_distrib_or]
  have hsum : (2 ^ 21 ||| 2 ^ 1 ||| 2 ^ 3 ||| 2 ^ 5 ||| 2 ^ 6 ||| 2 ^ 7 ||| 2 ^ 8 |||
      2 ^ 9 : Nat) = SAVED_TEXTURE_FLAGS := by decide
  rw [hsum, hf]
  have hkeep : (if t.has_data then true else false) = t.has_data := by
    cases t.has_data <;> rfl
  rw [hkeep]
  cases hh : t.has_data <;> simp

/-! ## C2 machinery, part 3: the uniforms round trip -/

theorem getD_map_range {β : Type} (f : Nat → β) (n i : Nat) (h : i < n) (d : β) :
    ((List.range n).map f).getD i d = f i := by
  rw [List.getD_eq_getElem?_getD, List.getElem?_map, List.getElem?_range h]
  rfl

theorem getD_ofFn {n : Nat} (f : Fin n → F) (j : Fin n) (d : F) :
    (List.ofFn f).getD j.val d = f j := by
  have hv := j.isLt
  have h1 : (List.ofFn f)[j.val]? = some (f ⟨j.val, hv⟩) := by
    simp [List.getElem?_ofFn, hv]
  rw [List.getD_eq_getElem?_getD, h1]
  rfl

/-- Parsing back the uniform object `Material::save` writes for schema
index `i` reproduces the material's uniform value at `i`, as a value of
the schema's type. -/
theorem parse_saveUniformObj (s : Shader) (m : Material) (i : Nat) :
    uniformValuesMatch (s.uniforms.getD i ⟨"", 0, UniformType.FLOAT⟩).type
      (parseUniformObj (saveUniformObj s m i)) (m.uniforms.getD i Uniform.zero) := by
  cases htype : (s.uniforms.getD i ⟨"", 0, UniformType.FLOAT⟩).type with
  | FLOAT =>
    show (parseUniformObj (saveUniformObj s m i)).float_value = _
    simp only [saveUniformObj, htype]
    rfl
  | COLOR =>
    show (parseUniformObj (saveUniformObj s m i)).vec3 = _
    simp only [saveUniformObj, htype]
    rfl
  | VEC3 =>
    show (parseUniformObj (saveUniformObj s m i)).vec3 = _
    simp only [saveUniformObj, htype]
    rfl
  | TIME => trivial
  | INT =>
    show (parseUniformObj (saveUniformObj s m i)).int_value = _
    simp only [saveUniformObj, htype]
    rfl
  | MATRIX4 =>
    show (parseUniformObj (saveUniformObj s m i)).matrix = _
    simp only [saveUniformObj, htype]
    show (fun j : Fin 16 =>
      (List.ofFn (m.uniforms.getD i Uniform.zero).matrix).getD j.val 0) = _
    funext j
    exact getD_ofFn (m.uniforms.getD i Uniform.zero).matrix j 0

/-! ## C2 machinery, part 4: document-level facts about the saved document -/

theorem all_ite_singleton {α : Type} (c : Prop) [Decidable c] (k : α) (p : α → Bool) :
    (if c then [k] else []).all p = (if c then p k else true) := by
  split <;> simp

theorem any_ite_singleton {α : Type} (c : Prop) [Decidable c] (k : α) (p : α → Bool) :
    (if c then [k] else []).any p = (if c then p k else false) := by
  split <;> simp

theorem filterMap_ite_none {α β : Type} (c : Prop) [Decidable c] (k : α) (f : α → Option β)
    (hk : f k = none) : (if c then [k] else []).filterMap f = [] := by
  split <;> simp [hk]

/-- Every `texture` block `Material::save` writes is clean: no key in it is
unrecognized by `Material::deserializeTexture`. -/
theorem texBlockClean_save (cell : Option Texture) :
    texBlockClean (saveTextureBlock cell) = true := by
  cases cell with
  | none => rfl
  | some t =>
    simp [saveTextureBlock, texBlockClean, List.all_append, List.all_cons,
      all_ite_singleton, TexKey.isUnknownKey]

theorem docTexClean_append (l1 l2 : List DocEntry) :
    docTexClean (l1 ++ l2) = (docTexClean l1 && docTexClean l2) := by
  simp [docTexClean, List.all_append]

theorem docHasShaderEntry_append (l1 l2 : List DocEntry) :
    docHasShaderEntry (l1 ++ l2) = (docHasShaderEntry l1 || docHasShaderEntry l2) := by
  simp [docHasShaderEntry, List.any_append]

theorem docTextureBlocks_append (l1 l2 : List DocEntry) :
    docTextureBlocks (l1 ++ l2) = docTextureBlocks l1 ++ docTextureBlocks l2 := by
  simp [docTextureBlocks, List.filterMap_append]

theorem docTextureBlocks_map_texture (l : List Nat) (f : Nat → List TexKey) :
    docTextureBlocks (l.map fun i => DocEntry.texture (f i)) = l.map f := by
  induction l with
  | nil => rfl
  | cons hd tl ih => simp [docTextureBlocks, List.filterMap_cons] at ih ⊢; exact ih

theorem docTexClean_map_texture (l : List Nat) (f : Nat → List TexKey)
    (h : ∀ i ∈ l, texBlockClean (f i) = true) :
    docTexClean (l.map fun i => DocEntry.texture (f i)) = true := by
  induction l with
  | nil => rfl
  | cons hd tl ih =>
    rw [List.map_cons, docTexClean_cons]
    dsimp only
    rw [h hd (List.mem_cons_self hd tl), ih (fun i hi => h i (List.mem_cons_of_mem hd hi))]
    rfl

theorem docHasShaderEntry_map_texture (l : List Nat) (f : Nat → List TexKey) :
    docHasShaderEntry (l.map fun i => DocEntry.texture (f i)) = false := by
  induction l with
  | nil => rfl
  | cons hd tl ih =>
    rw [List.map_cons, docHasShaderEntry_cons, ih]
    rfl

/-! ## C2 — save/load round trip -/

/-- C2: serializing a ready material with a shader through `Material::save`
and loading the produced document into a fresh material reproduces the
shader path, the texture paths and flags, the define set, the uniform
values (per schema type), the shininess, the alpha reference and the color.
Hypotheses: the shader cache resolves the saved shader path to the same
shader; the 32-bit define mask only uses bits covered by the renderer's
duplicate-free define table; the slot count fits the fixed slot array; and
each bound texture's flags lie within the serialized flag set. -/
theorem material_save_load_roundtrip (m : Material) (r : Renderer) (senv : String → Shader)
    (dir : String) (s : Shader)
    (hr : m.ready = true) (hs : m.shader = some s)
    (hsenv : senv s.path = s)
    (hmask : m.define_mask < U32)
    (hbits : ∀ i, i < 32 → m.define_mask.testBit i = true → i < r.shader_defines.length)
    (hnodup : r.shader_defines.Nodup)
    (htex : m.texture_count ≤ MAX_TEXTURE_COUNT)
    (hflags : ∀ i, i < m.texture_count → ∀ t, m.textures.getD i none = some t →
      t.flags &&& SAVED_TEXTURE_FLAGS = t.flags) :
    (m.save r).2 = true ∧
    ((Material.new r).load r senv dir (m.save r).1).2 = true ∧
    (((Material.new r).load r senv dir (m.save r).1).1.shader.map Shader.path) = some s.path ∧
    ((Material.new r).load r senv dir (m.save r).1).1.texture_count = m.texture_count ∧
    (∀ i, i < m.texture_count →
      texPathFlags (((Material.new r).load r senv dir (m.save r).1).1.textures.getD i none) =
        texPathFlags (m.textures.getD i none)) ∧
    ((Material.new r).load r senv dir (m.save r).1).1.define_mask = m.define_mask ∧
    ((Material.new r).load r senv dir (m.save r).1).1.uniforms.length = s.uniforms.length ∧
    (∀ i, i < s.uniforms.length →
      uniformValuesMatch (s.uniforms.getD i ⟨"", 0, UniformType.FLOAT⟩).type
        (((Material.new r).load r senv dir (m.save r).1).1.uniforms.getD i Uniform.zero)
        (m.uniforms.getD i Uniform.zero)) ∧
    ((Material.new r).load r senv dir (m.save r).1).1.shininess = m.shininess ∧
    ((Material.new r).load r senv dir (m.save r).1).1.alpha_ref = m.alpha_ref ∧
    ((Material.new r).load r senv dir (m.save r).1).1.color = m.color := by
  set D := savedDefineNames r m.define_mask with hD
  set U := (List.range s.uniforms.length).map (saveUniformObj s m) with hU
  set B := (List.range m.texture_count).map
    (fun i => saveTextureBlock (m.textures.getD i none)) with hB
  set T := (List.range m.texture_count).map
    (fun i => DocEntry.texture (saveTextureBlock (m.textures.getD i none))) with hT
  set LC := (if m.layer_count ≠ 1 then [DocEntry.layer_count m.layer_count] else []) with hLC
  set REST := [DocEntry.defines D, DocEntry.uniforms U, DocEntry.shininess m.shininess,
    DocEntry.alpha_ref m.alpha_ref, DocEntry.color m.color] with hREST
  have hsave2 : (m.save r).2 = true := by
    simp [Material.save, hr, hs]
  have hsave1 : (m.save r).1 = DocEntry.shader s.path :: (LC ++ (T ++ REST)) := by
    rw [hREST, hLC, hT, hD, hU]
    simp [Material.save, hr, hs, List.append_assoc]
  have hTclean : docTexClean T = true := by
    rw [hT]
    exact docTexClean_map_texture _ _ (fun i _ => texBlockClean_save _)
  have hLCclean : docTexClean LC = true := by
    rw [hLC]
    split <;> rfl
  have hRESTclean : docTexClean REST = true := by
    rw [hREST]
    rfl
  have hclean : docTexClean (m.save r).1 = true := by
    rw [hsave1, docTexClean_cons]
    dsimp only
    rw [docTexClean_append, docTexClean_append, hLCclean, hTclean, hRESTclean]
    rfl
  have hLCblocks : docTextureBlocks LC = [] := by
    rw [hLC]
    exact filterMap_ite_none _ _ _ rfl
  have hRESTblocks : docTextureBlocks REST = [] := by
    rw [hREST]
    rfl
  have hblocks : docTextureBlocks (m.save r).1 = B := by
    rw [hsave1, @docTextureBlocks_cons_nontex (DocEntry.shader s.path) (LC ++ (T ++ REST)) rfl,
      docTextureBlocks_append, hLCblocks, docTextureBlocks_append, hRESTblocks, hT,
      docTextureBlocks_map_texture, hB]
    simp
  have hblen : (docTextureBlocks (m.save r).1).length = m.texture_count := by
    rw [hblocks, hB]
    simp
  set mI := (Material.new r).loadInit with hmI
  have hloop_ok : (loadLoop r senv dir mI (m.save r).1).2 = true :=
    loadLoop_clean_ok _ hclean _
  have hIc : mI.texture_count = 0 := rfl
  have hIt : mI.textures = List.replicate MAX_TEXTURE_COUNT none := rfl
  obtain ⟨c1, c2, c3, c4, c5⟩ := loadLoop_texture_slots (m.save r).1 mI hclean
    (by rw [hIc, hIt, hblen]; simpa [MAX_TEXTURE_COUNT] using htex)
    (fun j _ => by rw [hIt]; exact getD_replicate none MAX_TEXTURE_COUNT j)
  have hstep_sh : (mI.loadEntry r senv dir (DocEntry.shader s.path)).2 = true := by
    rw [loadEntry_snd]
  have hm1shader : (mI.loadEntry r senv dir (DocEntry.shader s.path)).1.shader = some s := by
    rw [loadEntry_shader]
    dsimp only
    rw [hsenv]
  have hnse : docHasShaderEntry (LC ++ (T ++ REST)) = false := by
    rw [docHasShaderEntry_append, docHasShaderEntry_append]
    have h1 : docHasShaderEntry LC = false := by
      rw [hLC]
      split <;> rfl
    have h2 : docHasShaderEntry T = false := by
      rw [hT]
      exact docHasShaderEntry_map_texture _ _
    have h3 : docHasShaderEntry REST = false := by
      rw [hREST]
      rfl
    rw [h1, h2, h3]
    rfl
  have hshader_final : (loadLoop r senv dir mI (m.save r).1).1.shader = some s := by
    rw [hsave1, loadLoop_cons_ok _ hstep_sh, loadLoop_no_shader_entry _ hnse, hm1shader]
  have hassoc : DocEntry.shader s.path :: (LC ++ (T ++ REST)) =
      (DocEntry.shader s.path :: (LC ++ T)) ++ REST := by
    simp [List.append_assoc]
  have hPREok : (loadLoop r senv dir mI (DocEntry.shader s.path :: (LC ++ T))).2 = true := by
    apply loadLoop_clean_ok
    rw [docTexClean_cons]
    dsimp only
    rw [docTexClean_append, hLCclean, hTclean]
    rfl
  set mA := (loadLoop r senv dir mI (DocEntry.shader s.path :: (LC ++ T))).1 with hmA
  have hsplit : loadLoop r senv dir mI (m.save r).1 = loadLoop r senv dir mA REST := by
    rw [hsave1, hassoc, loadLoop_append _ _ _ hPREok]
  have hrest : (loadLoop r senv dir mA REST).1 =
      { mA with
        define_mask := D.foldl (fun acc n => setMaskBit acc (r.getShaderDefineIdx n)) 0,
        uniforms := U.map parseUniformObj,
        shininess := m.shininess, alpha_ref := m.alpha_ref, color := m.color } := by
    rw [hREST]
    rfl
  have hfinal : (loadLoop r senv dir mI (m.save r).1).1 =
      { mA with
        define_mask := D.foldl (fun acc n => setMaskBit acc (r.getShaderDefineIdx n)) 0,
        uniforms := U.map parseUniformObj,
        shininess := m.shininess, alpha_ref := m.alpha_ref, color := m.color } := by
    rw [hsplit, hrest]
  rw [load_result (Material.new r) r senv dir ((m.save r).1), ← hmI]
  refine ⟨hsave2, ?_, ?_, ?_, ?_, ?_, ?_, ?_, ?_, ?_, ?_⟩
  · simp [hloop_ok, hshader_final]
  · rw [hshader_final]
    rfl
  · rw [c1, hIc, hblen]
    omega
  · intro i hi
    have hc4 := c4 i (by rw [hblen]; exact hi)
    rw [hIc] at hc4
    simp only [Nat.zero_add] at hc4
    rw [hc4, hblocks, hB, getD_map_range _ _ _ hi]
    cases hcell : m.textures.getD i none with
    | none => rw [textureFromBlock_save_none]
    | some t =>
      rw [textureFromBlock_save_some dir t (hflags i hi t hcell)]
      rfl
  · rw [hfinal]
    show D.foldl (fun acc n => setMaskBit acc (r.getShaderDefineIdx n)) 0 = m.define_mask
    rw [hD]
    exact savedDefines_roundtrip r m.define_mask hmask hbits hnodup
  · rw [hfinal]
    show (U.map parseUniformObj).length = s.uniforms.length
    rw [hU]
    simp
  · intro i hi
    rw [hfinal]
    show uniformValuesMatch (s.uniforms.getD i ⟨"", 0, UniformType.FLOAT⟩).type
      ((U.map parseUniformObj).getD i Uniform.zero) (m.uniforms.getD i Uniform.zero)
    rw [hU, List.map_map, getD_map_range _ _ _ hi]
    exact parse_saveUniformObj s m i
  · rw [hfinal]
  · rw [hfinal]
  · rw [hfinal]

set_option maxRecDepth 8000 in
/-- Witness for C2 at the concrete sample material (one bound sRGB+clamp
texture, aligned two-uniform table, define bit 1 set). -/
theorem material_save_load_roundtrip_witness :
    (sampleMaterial.save sampleRenderer).2 = true ∧
    ((Material.new sampleRenderer).load sampleRenderer sampleSenv "mats/"
        (sampleMaterial.save sampleRenderer).1).2 = true ∧
    (((Material.new sampleRenderer).load sampleRenderer sampleSenv "mats/"
        (sampleMaterial.save sampleRenderer).1).1.shader.map Shader.path) =
      some sampleShader.path ∧
    ((Material.new sampleRenderer).load sampleRenderer sampleSenv "mats/"
        (sampleMaterial.save sampleRenderer).1).1.texture_count =
      sampleMaterial.texture_count ∧
    (∀ i, i < sampleMaterial.texture_count →
      texPathFlags (((Material.new sampleRenderer).load sampleRenderer sampleSenv "mats/"
          (sampleMaterial.save sampleRenderer).1).1.textures.getD i none) =
        texPathFlags (sampleMaterial.textures.getD i none)) ∧
    ((Material.new sampleRenderer).load sampleRenderer sampleSenv "mats/"
        (sampleMaterial.save sampleRenderer).1).1.define_mask =
      sampleMaterial.define_mask ∧
    ((Material.new sampleRenderer).load sampleRenderer sampleSenv "mats/"
        (sampleMaterial.save sampleRenderer).1).1.uniforms.length =
      sampleShader.uniforms.length ∧
    (∀ i, i < sampleShader.uniforms.length →
      uniformValuesMatch (sampleShader.uniforms.getD i ⟨"", 0, UniformType.FLOAT⟩).type
        (((Material.new sampleRenderer).load sampleRenderer sampleSenv "mats/"
            (sampleMaterial.save sampleRenderer).1).1.uniforms.getD i Uniform.zero)
        (sampleMaterial.uniforms.getD i Uniform.zero)) ∧
    ((Material.new sampleRenderer).load sampleRenderer sampleSenv "mats/"
        (sampleMaterial.save sampleRenderer).1).1.shininess = sampleMaterial.shininess ∧
    ((Material.new sampleRenderer).load sampleRenderer sampleSenv "mats/"
        (sampleMaterial.save sampleRenderer).1).1.alpha_ref = sampleMaterial.alpha_ref ∧
    ((Material.new sampleRenderer).load sampleRenderer sampleSenv "mats/"
        (sampleMaterial.save sampleRenderer).1).1.color = sampleMaterial.color :=
  material_save_load_roundtrip sampleMaterial sampleRenderer sampleSenv "mats/" sampleShader
    rfl rfl (by decide) (by decide) (by decide) (by decide) (by decide)
    (fun i hi t ht => by
      have hcnt : sampleMaterial.texture_count = 1 := rfl
      have hi0 : i = 0 := by omega
      subst hi0
      have hcell : sampleMaterial.textures.getD 0 none = some sampleTexture := rfl
      rw [hcell] at ht
      cases ht
      decide)

end LumixSpec
